import Mathlib

/-!
Shallow embedding of the donation-management engine in `main.py`
(repository Sylmaraalves11/Projeto-Final), class `SistemaDoacoes`.

Modelling conventions:
* Python integers are `Int` (no overflow in Python, quantities may go
  negative on unvalidated input).
* The external id generator (`_novo_id`, uuid-based) and the external clock
  (`_now`) are modelled by a single monotone counter `proximo` carried in the
  state: every generated id is fresh, and timestamps are inert data.
* `estoque` is a `defaultdict(list)`; it is modelled by an association list
  read through `estoqueGet`, which defaults to `[]`.  The state is identified
  with the mapping category to list of items, under which the defaultdict
  feature of materialising an empty entry on first read is the identity.
* `pedidos` is a dict id to Pedido; dict indexing assignment only ever
  happens at creation (fresh key, modelled by consing), all later changes
  mutate the stored object in place (modelled by `pedidosSet`).
* The deques `fila_alta`, `fila_media`, `fila_baixa` are lists with the
  front at the head; `deque.rotate(-1)` moves the head to the back.
* `historico_alocacoes` is a Python list used as a stack (append and pop at
  the end); it is modelled with the stack top at the head of the list.
* The donor table and the textual log are outside the allocation core (spec
  section 1 treats donor bookkeeping and logging as external collaborators)
  and no claim mentions them, so they are not carried in the state.
-/

/-- Donated item held in the inventory (dataclass `ItemDoacao`). -/
structure ItemDoacao where
  id : Nat
  nome : String
  categoria : String
  quantidade : Int
  data : Nat
deriving DecidableEq, Repr

/-- Request for goods (dataclass `Pedido`). -/
structure Pedido where
  id : Nat
  solicitante : String
  categoria : String
  quantidade : Int
  prioridade : String
  data : Nat
  atendido : Bool := false
deriving DecidableEq, Repr

/-- Committed allocation event (dataclass `Alocacao`). -/
structure Alocacao where
  id : Nat
  item_id : Nat
  pedido_id : Nat
  quantidade : Int
  data : Nat
deriving DecidableEq, Repr

/-- State of `SistemaDoacoes` (fields of `__init__`, minus donors and log). -/
structure Sistema where
  estoque : List (String × List ItemDoacao)
  fila_alta : List Nat
  fila_media : List Nat
  fila_baixa : List Nat
  pedidos : List (Nat × Pedido)
  historico_alocacoes : List Alocacao
  proximo : Nat
deriving DecidableEq, Repr

/-- Lookup `estoque[categoria]` with the defaultdict default `[]`. -/
def estoqueGet : List (String × List ItemDoacao) → String → List ItemDoacao
  | [], _ => []
  | (k, v) :: t, cat => if k = cat then v else estoqueGet t cat

/-- Write `estoque[categoria] = l` (replace the entry, or create it). -/
def estoqueSet : List (String × List ItemDoacao) → String → List ItemDoacao →
    List (String × List ItemDoacao)
  | [], cat, l => [(cat, l)]
  | (k, v) :: t, cat, l => if k = cat then (k, l) :: t else (k, v) :: estoqueSet t cat l

/-- Lookup `pedidos.get(pid)`. -/
def pedidosGet : List (Nat × Pedido) → Nat → Option Pedido
  | [], _ => none
  | (k, v) :: t, pid => if k = pid then some v else pedidosGet t pid

/-- In-place mutation of the `Pedido` object stored under an existing key. -/
def pedidosSet : List (Nat × Pedido) → Nat → Pedido → List (Nat × Pedido)
  | [], _, _ => []
  | (k, v) :: t, pid, p => if k = pid then (k, p) :: t else (k, v) :: pedidosSet t pid p

/-- Queue contents in priority order, used to state queue invariants. -/
def filaIds (s : Sistema) : List Nat :=
  s.fila_alta ++ s.fila_media ++ s.fila_baixa

/-- Drop the front of a queue when it equals `pid` (`fila.popleft()` guarded
by `fila and fila[0] == pedido_id`). -/
def popFrontIfEq : List Nat → Nat → List Nat
  | [], _ => []
  | x :: t, pid => if x = pid then t else x :: t

/-- Lines 147-149 of `main.py`: pop the front of every queue whose front is
the stale id (the `for` loop there has no `break`). -/
def popFronts (s : Sistema) (pid : Nat) : Sistema :=
  { s with
    fila_alta := popFrontIfEq s.fila_alta pid,
    fila_media := popFrontIfEq s.fila_media pid,
    fila_baixa := popFrontIfEq s.fila_baixa pid }

/-- Lines 188-194 of `main.py`: delete `pedido.id` from the first queue that
contains it (front popleft and interior `remove` both delete the first
occurrence). -/
def removeDaPrimeiraFila (s : Sistema) (pid : Nat) : Sistema :=
  if pid ∈ s.fila_alta then { s with fila_alta := s.fila_alta.erase pid }
  else if pid ∈ s.fila_media then { s with fila_media := s.fila_media.erase pid }
  else if pid ∈ s.fila_baixa then { s with fila_baixa := s.fila_baixa.erase pid }
  else s

/-- Local function `prox_pedido` of `_tentar_alocar_para_pedidos`: peek the
front of the first nonempty queue, in priority order. -/
def prox_pedido (s : Sistema) : Option Nat :=
  match s.fila_alta, s.fila_media, s.fila_baixa with
  | pid :: _, _, _ => some pid
  | [], pid :: _, _ => some pid
  | [], [], pid :: _ => some pid
  | [], [], [] => none

/-- Lines 154-159 of `main.py`: scan one queue front to back for the first id
whose pedido exists, is not yet satisfied and has the wanted category. -/
def findCompatIn (peds : List (Nat × Pedido)) (cat : String) : List Nat → Option (Nat × Pedido)
  | [] => none
  | pid :: t =>
    match pedidosGet peds pid with
    | some p =>
        if p.atendido = false ∧ p.categoria = cat then some (pid, p)
        else findCompatIn peds cat t
    | none => findCompatIn peds cat t

/-- One `deque.rotate(-1)` step: the front moves to the back. -/
def rot1 : List Nat → List Nat
  | [] => []
  | y :: t => t ++ [y]

/-- Fuelled form of `while fila[0] != found: fila.rotate(-1)`. -/
def rotAux : Nat → List Nat → Nat → List Nat
  | 0, l, _ => l
  | f + 1, l, x =>
    match l with
    | [] => []
    | y :: t => if y = x then y :: t else rotAux f (rot1 (y :: t)) x

/-- Rotate a queue until `x` is at the front (lines 162-163 of `main.py`).
The loop runs at most `l.length` times when `x` is a member. -/
def rotateTo (l : List Nat) (x : Nat) : List Nat :=
  rotAux l.length l x

/-- Lines 153-166 of `main.py`: scan the queues in priority order for a
compatible pedido and rotate its own queue to bring it to the front. -/
def promover (s : Sistema) (cat : String) : Option (Sistema × Nat × Pedido) :=
  match findCompatIn s.pedidos cat s.fila_alta with
  | some (pid, p) => some ({ s with fila_alta := rotateTo s.fila_alta pid }, pid, p)
  | none =>
    match findCompatIn s.pedidos cat s.fila_media with
    | some (pid, p) => some ({ s with fila_media := rotateTo s.fila_media pid }, pid, p)
    | none =>
      match findCompatIn s.pedidos cat s.fila_baixa with
      | some (pid, p) => some ({ s with fila_baixa := rotateTo s.fila_baixa pid }, pid, p)
      | none => none

/-- Lines 170-195 of `main.py`: the commit part of one loop iteration.  If
the category has no stock this is the `break` (second component `false`);
otherwise one allocation of `min(item.quantidade, pedido.quantidade)` is
committed against the front stock item and the iteration continues. -/
def alocar (s : Sistema) (cat : String) (pid : Nat) (p : Pedido) : Sistema × Bool :=
  match estoqueGet s.estoque cat with
  | [] => (s, false)
  | item :: resto =>
    let qtd := min item.quantidade p.quantidade
    let aloc : Alocacao :=
      { id := s.proximo, item_id := item.id, pedido_id := pid,
        quantidade := qtd, data := s.proximo }
    let novoEstoque :=
      if item.quantidade - qtd ≤ 0 then resto
      else { item with quantidade := item.quantidade - qtd } :: resto
    let p2 : Pedido := { p with quantidade := p.quantidade - qtd }
    let s2 : Sistema :=
      { s with
        estoque := estoqueSet s.estoque cat novoEstoque,
        historico_alocacoes := aloc :: s.historico_alocacoes,
        proximo := s.proximo + 1 }
    if p2.quantidade ≤ 0 then
      let s3 : Sistema :=
        { s2 with pedidos := pedidosSet s2.pedidos pid { p2 with atendido := true } }
      (removeDaPrimeiraFila s3 pid, true)
    else
      ({ s2 with pedidos := pedidosSet s2.pedidos pid p2 }, true)

/-- One iteration of the `while True` loop of
`_tentar_alocar_para_pedidos`.  The boolean is `true` when the Python loop
continues and `false` when it hits a `break`; the returned state carries any
mutation done before the `break` (the scan can rotate a queue and then break
on empty stock). -/
def passo (s : Sistema) (cat : String) : Sistema × Bool :=
  match prox_pedido s with
  | none => (s, false)
  | some pid =>
    match pedidosGet s.pedidos pid with
    | none => (popFronts s pid, true)
    | some p =>
      if p.atendido then (popFronts s pid, true)
      else if p.categoria = cat then alocar s cat pid p
      else
        match promover s cat with
        | none => (s, false)
        | some (s1, pid1, p1) => alocar s1 cat pid1 p1

/-- Total number of queued ids. -/
def filasLen (s : Sistema) : Nat :=
  s.fila_alta.length + s.fila_media.length + s.fila_baixa.length

/-- Termination measure for the matching loop: stock items in the category
plus entries in the three queues, plus one for the final iteration. -/
def medida (s : Sistema) (cat : String) : Nat :=
  (estoqueGet s.estoque cat).length + filasLen s + 1

/-- Fuelled matching loop. -/
def alocLoop : Nat → Sistema → String → Sistema
  | 0, s, _ => s
  | f + 1, s, cat =>
    match passo s cat with
    | (s1, false) => s1
    | (s1, true) => alocLoop f s1 cat

/-- Method `_tentar_alocar_para_pedidos`: run the matching loop.  `medida`
iterations always suffice (theorem `alocLoop_adequate`). -/
def tentar_alocar (s : Sistema) (cat : String) : Sistema :=
  alocLoop (medida s cat) s cat

/-- Method `registrar_doacao`: create the item, append it to the tail of its
category group, then trigger matching for the category. -/
def registrar_doacao (s : Sistema) (nomeItem cat : String) (qtd : Int) : Sistema :=
  let item : ItemDoacao :=
    { id := s.proximo, nome := nomeItem, categoria := cat,
      quantidade := qtd, data := s.proximo }
  let s1 : Sistema :=
    { s with
      estoque := estoqueSet s.estoque cat (estoqueGet s.estoque cat ++ [item]),
      proximo := s.proximo + 1 }
  tentar_alocar s1 cat

/-- Method `cadastrar_pedido`: create the pedido, enqueue its id at the tail
of the queue selected by the priority string (anything other than `alta` and
`media` lands in the low queue), then trigger matching for the category. -/
def cadastrar_pedido (s : Sistema) (sol cat : String) (qtd : Int) (prioridade : String) :
    Sistema :=
  let pid := s.proximo
  let p : Pedido :=
    { id := pid, solicitante := sol, categoria := cat, quantidade := qtd,
      prioridade := prioridade, data := pid, atendido := false }
  let s1 : Sistema := { s with pedidos := (pid, p) :: s.pedidos, proximo := pid + 1 }
  let s2 : Sistema :=
    if prioridade = "alta" then { s1 with fila_alta := s1.fila_alta ++ [pid] }
    else if prioridade = "media" then { s1 with fila_media := s1.fila_media ++ [pid] }
    else { s1 with fila_baixa := s1.fila_baixa ++ [pid] }
  tentar_alocar s2 cat

/-- Method `desfazer_ultima_alocacao`: pop the most recent allocation (if
any), give the quantity back to the pedido, reactivate and requeue it at the
front when it had been satisfied, and return the quantity to the stock as a
recreated item filed under the synthetic category `Desconhecido`. -/
def desfazer_ultima_alocacao (s : Sistema) : Sistema × Bool :=
  match s.historico_alocacoes with
  | [] => (s, false)
  | aloc :: resto =>
    let s1 : Sistema := { s with historico_alocacoes := resto }
    let item : ItemDoacao :=
      { id := aloc.item_id, nome := "Item_recuperado_" ++ toString aloc.item_id,
        categoria := "Desconhecido", quantidade := aloc.quantidade, data := s.proximo }
    let s2 : Sistema :=
      match pedidosGet s1.pedidos aloc.pedido_id with
      | none => s1
      | some p =>
        if p.atendido then
          let s1a : Sistema :=
            if p.prioridade = "alta" then { s1 with fila_alta := p.id :: s1.fila_alta }
            else if p.prioridade = "media" then { s1 with fila_media := p.id :: s1.fila_media }
            else { s1 with fila_baixa := p.id :: s1.fila_baixa }
          { s1a with
            pedidos := pedidosSet s1a.pedidos aloc.pedido_id
              { p with atendido := false, quantidade := p.quantidade + aloc.quantidade } }
        else
          { s1 with
            pedidos := pedidosSet s1.pedidos aloc.pedido_id
              { p with quantidade := p.quantidade + aloc.quantidade } }
    ({ s2 with
        estoque := estoqueSet s2.estoque "Desconhecido"
          (estoqueGet s2.estoque "Desconhecido" ++ [item]) },
      true)

/-- Freshly constructed system (`SistemaDoacoes.__init__`). -/
def vazio : Sistema :=
  { estoque := [], fila_alta := [], fila_media := [], fila_baixa := [],
    pedidos := [], historico_alocacoes := [], proximo := 0 }

/-- Total quantity currently in stock under one category. -/
def somaCategoria (s : Sistema) (cat : String) : Int :=
  ((estoqueGet s.estoque cat).map ItemDoacao.quantidade).sum

/-- States reachable through the public operations with the valid inputs of
the data model in spec section 3 (donation and request quantities are
positive integers; priority strings are unrestricted, since the code routes
unknown ones to the low queue). -/
inductive Reachable : Sistema → Prop where
  | vazio : Reachable vazio
  | doacao : ∀ {s} (nomeItem cat : String) (qtd : Int),
      Reachable s → 0 < qtd → Reachable (registrar_doacao s nomeItem cat qtd)
  | pedido : ∀ {s} (sol cat : String) (qtd : Int) (pr : String),
      Reachable s → 0 < qtd → Reachable (cadastrar_pedido s sol cat qtd pr)
  | desfaz : ∀ {s}, Reachable s → Reachable (desfazer_ultima_alocacao s).1

/-- A queued id refers to a live (existing, not yet satisfied) pedido. -/
def vivo (peds : List (Nat × Pedido)) (pid : Nat) : Bool :=
  match pedidosGet peds pid with
  | some p => !p.atendido
  | none => false

/-- Every id sitting in some priority queue refers to a live pedido.  This is
the queue well-formedness that all states reachable through the public
operations enjoy. -/
def FilasVivas (s : Sistema) : Prop :=
  ∀ pid ∈ filaIds s, vivo s.pedidos pid = true

/-- The queued id refers to an unsatisfied pedido of the given category. -/
def pedidoCompativelB (peds : List (Nat × Pedido)) (cat : String) (pid : Nat) : Bool :=
  match pedidosGet peds pid with
  | some p => !p.atendido && (p.categoria = cat)
  | none => false

/-- No queue holds a compatible unsatisfied request for the category. -/
def semCompativeis (s : Sistema) (cat : String) : Prop :=
  ∀ pid ∈ filaIds s, pedidoCompativelB s.pedidos cat pid = false

instance (s : Sistema) : Decidable (FilasVivas s) :=
  inferInstanceAs (Decidable (∀ pid ∈ filaIds s, vivo s.pedidos pid = true))

instance (s : Sistema) (cat : String) : Decidable (semCompativeis s cat) :=
  inferInstanceAs (Decidable (∀ pid ∈ filaIds s, pedidoCompativelB s.pedidos cat pid = false))

/-- Inductive invariant carried by every reachable state; the queue
singularity properties of the spec are the first two fields. -/
structure Invar (s : Sistema) : Prop where
  nodup : (filaIds s).Nodup
  vivos : ∀ pid ∈ filaIds s, ∃ p, pedidosGet s.pedidos pid = some p ∧
    p.atendido = false ∧ 0 < p.quantidade
  estoquePos : ∀ cat : String, ∀ it ∈ estoqueGet s.estoque cat, 0 < it.quantidade
  histPos : ∀ a ∈ s.historico_alocacoes, 0 < a.quantidade
  pedChave : ∀ pid p, pedidosGet s.pedidos pid = some p →
    0 ≤ p.quantidade ∧ p.id = pid ∧ pid < s.proximo

/-- Undo-reversibility scenario of the spec: donate 10 units, request 4 at
high priority (one allocation of 4 is committed), then undo. -/
def cenarioUndo : Sistema :=
  cadastrar_pedido (registrar_doacao vazio "A" "cat" 10) "R" "cat" 4 "alta"

/-- The state after undoing the allocation of `cenarioUndo`. -/
def cenarioUndoDepois : Sistema :=
  (desfazer_ultima_alocacao cenarioUndo).1

/-- FIFO scenario of the spec: donate 5 then 3 units of Alimentos, then
request 4 Alimentos at priority alta. -/
def cenarioFifo : Sistema :=
  cadastrar_pedido
    (registrar_doacao (registrar_doacao vazio "Arroz" "Alimentos" 5) "Feijao" "Alimentos" 3)
    "FamA" "Alimentos" 4 "alta"

/-- A state whose middle-priority queue holds requests 10 (category B),
11 (category A) and 12 (category B), with no stock at all: matching for A
must promote request 11 from the middle of its queue. -/
def estadoPromove : Sistema :=
  { estoque := [],
    fila_alta := [],
    fila_media := [10, 11, 12],
    fila_baixa := [],
    pedidos :=
      [(10, { id := 10, solicitante := "b0", categoria := "B", quantidade := 1,
              prioridade := "media", data := 0, atendido := false }),
       (11, { id := 11, solicitante := "a1", categoria := "A", quantidade := 1,
              prioridade := "media", data := 0, atendido := false }),
       (12, { id := 12, solicitante := "b2", categoria := "B", quantidade := 1,
              prioridade := "media", data := 0, atendido := false })],
    historico_alocacoes := [],
    proximo := 13 }

/-- A reachable state with no stock whose middle queue is [1, 0] with pedido
0 of category B behind pedido 1 of category A: running the matching step for
B rotates the queue even though nothing can be allocated. -/
def estadoRotaciona : Sistema :=
  cadastrar_pedido (cadastrar_pedido vazio "pb" "B" 1 "media") "pa" "A" 1 "media"

/-- A mid-run state: one stock item of 5 units in category A and one queued
high-priority request for 3 units of A, so the next matching iteration
commits an allocation. -/
def estadoMeio : Sistema :=
  { estoque :=
      [("A",
        [{ id := 5, nome := "caixa", categoria := "A", quantidade := 5, data := 0 }])],
    fila_alta := [7],
    fila_media := [],
    fila_baixa := [],
    pedidos :=
      [(7,
        { id := 7, solicitante := "F", categoria := "A", quantidade := 3,
          prioridade := "alta", data := 0, atendido := false })],
    historico_alocacoes := [],
    proximo := 8 }

/-- Two unsatisfied requests for category A with different priorities: a
high-priority request 20 for 3 units and a low-priority request 21 for 2
units, with no stock. -/
def estadoDupla : Sistema :=
  { estoque := [],
    fila_alta := [20],
    fila_media := [],
    fila_baixa := [21],
    pedidos :=
      [(20,
        { id := 20, solicitante := "H", categoria := "A", quantidade := 3,
          prioridade := "alta", data := 0, atendido := false }),
       (21,
        { id := 21, solicitante := "L", categoria := "A", quantidade := 2,
          prioridade := "baixa", data := 0, atendido := false })],
    historico_alocacoes := [],
    proximo := 22 }

/-! ### Lemmas about the association-list maps -/

theorem estoqueGet_set_self (es : List (String × List ItemDoacao)) (cat : String)
    (l : List ItemDoacao) : estoqueGet (estoqueSet es cat l) cat = l := by
  induction es with
  | nil => simp [estoqueGet, estoqueSet]
  | cons e t ih =>
    obtain ⟨k, v⟩ := e
    by_cases h : k = cat <;> simp [estoqueGet, estoqueSet, h, ih]

theorem estoqueGet_set_ne (es : List (String × List ItemDoacao)) {cat cat' : String}
    (l : List ItemDoacao) (h : cat' ≠ cat) :
    estoqueGet (estoqueSet es cat l) cat' = estoqueGet es cat' := by
  have h2 : cat ≠ cat' := Ne.symm h
  induction es with
  | nil => simp [estoqueGet, estoqueSet, h2]
  | cons e t ih =>
    obtain ⟨k, v⟩ := e
    by_cases hk : k = cat
    · subst hk
      simp [estoqueGet, estoqueSet, h2]
    · by_cases hk' : k = cat' <;> simp [estoqueGet, estoqueSet, hk, hk', h, ih]

theorem pedidosGet_set (m : List (Nat × Pedido)) (pid : Nat) (p : Pedido) (pid' : Nat) :
    pedidosGet (pedidosSet m pid p) pid' =
      if pid' = pid then (pedidosGet m pid).map (fun _ => p) else pedidosGet m pid' := by
  induction m with
  | nil => by_cases h : pid' = pid <;> simp [pedidosGet, pedidosSet, h]
  | cons e t ih =>
    obtain ⟨k, v⟩ := e
    by_cases hk : k = pid
    · by_cases hp : pid' = pid
      · have hkp : k = pid' := by rw [hk, hp]
        simp [pedidosGet, pedidosSet, hk, hp, hkp]
      · have hkp : ¬k = pid' := by
          rw [hk]; exact fun hc => hp hc.symm
        have hpp : ¬pid = pid' := fun hc => hp hc.symm
        simp [pedidosGet, pedidosSet, hk, hp, hkp, hpp]
    · by_cases hp' : k = pid'
      · have hne : ¬pid' = pid := by
          rw [← hp']; exact fun hc => hk hc
        simp [pedidosGet, pedidosSet, hk, hp', hne]
      · simp [pedidosGet, pedidosSet, hk, hp', ih]

theorem pedidosGet_set_self {m : List (Nat × Pedido)} {pid : Nat} {q : Pedido} (p : Pedido)
    (h : pedidosGet m pid = some q) : pedidosGet (pedidosSet m pid p) pid = some p := by
  simp [pedidosGet_set, h]

theorem pedidosGet_set_ne {m : List (Nat × Pedido)} {pid pid' : Nat} (p : Pedido)
    (h : pid' ≠ pid) : pedidosGet (pedidosSet m pid p) pid' = pedidosGet m pid' := by
  simp [pedidosGet_set, h]

theorem pedidosGet_cons (k : Nat) (v : Pedido) (m : List (Nat × Pedido)) (pid : Nat) :
    pedidosGet ((k, v) :: m) pid = if k = pid then some v else pedidosGet m pid := rfl

/-! ### Lemmas about the queue-rotation loop -/

theorem dropWhile_append_single {x y : Nat} {t : List Nat} (hx : x ∈ t) :
    (t ++ [y]).dropWhile (fun z => z != x) = t.dropWhile (fun z => z != x) ++ [y] := by
  induction t with
  | nil => cases hx
  | cons a t' ih =>
    by_cases ha : a = x
    · subst ha
      simp [List.dropWhile_cons]
    · have hx' : x ∈ t' := by
        rcases List.mem_cons.1 hx with h | h
        · exact absurd h.symm ha
        · exact h
      simp [List.dropWhile_cons, ha, ih hx']

theorem takeWhile_append_single {x y : Nat} {t : List Nat} (hx : x ∈ t) :
    (t ++ [y]).takeWhile (fun z => z != x) = t.takeWhile (fun z => z != x) := by
  induction t with
  | nil => cases hx
  | cons a t' ih =>
    by_cases ha : a = x
    · subst ha
      simp [List.takeWhile_cons]
    · have hx' : x ∈ t' := by
        rcases List.mem_cons.1 hx with h | h
        · exact absurd h.symm ha
        · exact h
      simp [List.takeWhile_cons, ha, ih hx']

theorem rotAux_spec : ∀ (f : Nat) (l : List Nat) (x : Nat), x ∈ l → List.indexOf x l < f →
    rotAux f l x = l.dropWhile (fun z => z != x) ++ l.takeWhile (fun z => z != x) := by
  intro f
  induction f with
  | zero => intro l x _ h; omega
  | succ f ih =>
    intro l x hx hidx
    match l with
    | [] => cases hx
    | y :: t =>
      by_cases hy : y = x
      · subst hy
        simp [rotAux, List.dropWhile_cons, List.takeWhile_cons]
      · have hxt : x ∈ t := by
          rcases List.mem_cons.1 hx with h | h
          · exact absurd h.symm hy
          · exact h
        have hidx' : List.indexOf x (t ++ [y]) < f := by
          rw [List.indexOf_append_of_mem hxt]
          have : List.indexOf x (y :: t) = List.indexOf x t + 1 :=
            List.indexOf_cons_ne t hy
          omega
        have hxm : x ∈ t ++ [y] := List.mem_append_left _ hxt
        have := ih (t ++ [y]) x hxm hidx'
        simp only [rotAux, rot1, hy, if_neg hy, this]
        rw [dropWhile_append_single hxt, takeWhile_append_single hxt]
        simp [List.dropWhile_cons, List.takeWhile_cons, hy]

theorem rotateTo_eq_of_mem {l : List Nat} {x : Nat} (hx : x ∈ l) :
    rotateTo l x = l.dropWhile (fun z => z != x) ++ l.takeWhile (fun z => z != x) :=
  rotAux_spec l.length l x hx (List.indexOf_lt_length.2 hx)

theorem rotateTo_perm {l : List Nat} {x : Nat} (hx : x ∈ l) : (rotateTo l x).Perm l := by
  rw [rotateTo_eq_of_mem hx]
  calc (l.dropWhile (fun z => z != x) ++ l.takeWhile (fun z => z != x)).Perm
        (l.takeWhile (fun z => z != x) ++ l.dropWhile (fun z => z != x)) := List.perm_append_comm
    _ = l := List.takeWhile_append_dropWhile _ _

/-! ### Specifications of the scan helpers -/

theorem prox_pedido_none {s : Sistema} (h : prox_pedido s = none) :
    s.fila_alta = [] ∧ s.fila_media = [] ∧ s.fila_baixa = [] := by
  unfold prox_pedido at h
  rcases ha : s.fila_alta with _ | ⟨a, ta⟩ <;> rcases hm : s.fila_media with _ | ⟨b, tb⟩ <;>
    rcases hb : s.fila_baixa with _ | ⟨c, tc⟩ <;> simp [ha, hm, hb] at h <;> simp

theorem prox_pedido_some {s : Sistema} {pid : Nat} (h : prox_pedido s = some pid) :
    (∃ t, s.fila_alta = pid :: t) ∨
    (s.fila_alta = [] ∧ ∃ t, s.fila_media = pid :: t) ∨
    (s.fila_alta = [] ∧ s.fila_media = [] ∧ ∃ t, s.fila_baixa = pid :: t) := by
  unfold prox_pedido at h
  rcases ha : s.fila_alta with _ | ⟨a, ta⟩ <;> rcases hm : s.fila_media with _ | ⟨b, tb⟩ <;>
    rcases hb : s.fila_baixa with _ | ⟨c, tc⟩ <;> simp [ha, hm, hb] at h <;> simp [h]

theorem findCompatIn_spec {peds : List (Nat × Pedido)} {cat : String} :
    ∀ {l : List Nat} {pid : Nat} {p : Pedido}, findCompatIn peds cat l = some (pid, p) →
      pid ∈ l ∧ pedidosGet peds pid = some p ∧ p.atendido = false ∧ p.categoria = cat := by
  intro l
  induction l with
  | nil => intro pid p h; simp [findCompatIn] at h
  | cons a t ih =>
    intro pid p h
    rw [findCompatIn] at h
    rcases hg : pedidosGet peds a with _ | q <;> rw [hg] at h <;> dsimp only at h
    · obtain ⟨h1, h2, h3, h4⟩ := ih h
      exact ⟨List.mem_cons_of_mem a h1, h2, h3, h4⟩
    · by_cases hc : q.atendido = false ∧ q.categoria = cat
      · rw [if_pos hc] at h
        injection h with h2
        injection h2 with ha hq
        subst ha; subst hq
        exact ⟨List.mem_cons_self a t, hg, hc.1, hc.2⟩
      · rw [if_neg hc] at h
        obtain ⟨h1, h2, h3, h4⟩ := ih h
        exact ⟨List.mem_cons_of_mem a h1, h2, h3, h4⟩

/-! ### The scan-and-promote step -/

theorem prox_pedido_mem {s : Sistema} {pid : Nat} (h : prox_pedido s = some pid) :
    pid ∈ filaIds s := by
  rcases prox_pedido_some h with ⟨t, ht⟩ | ⟨ha, t, ht⟩ | ⟨ha, hm, t, ht⟩ <;>
    simp [filaIds, ht]

theorem promover_spec {s : Sistema} {cat : String} {s1 : Sistema} {pid : Nat} {p : Pedido}
    (h : promover s cat = some (s1, pid, p)) :
    s1.estoque = s.estoque ∧ s1.pedidos = s.pedidos ∧
    s1.historico_alocacoes = s.historico_alocacoes ∧ s1.proximo = s.proximo ∧
    s1.fila_alta.Perm s.fila_alta ∧ s1.fila_media.Perm s.fila_media ∧
    s1.fila_baixa.Perm s.fila_baixa ∧ pid ∈ filaIds s1 ∧
    pedidosGet s.pedidos pid = some p ∧ p.atendido = false ∧ p.categoria = cat := by
  unfold promover at h
  rcases hA : findCompatIn s.pedidos cat s.fila_alta with _ | ⟨pidA, pA⟩ <;> rw [hA] at h
  · rcases hM : findCompatIn s.pedidos cat s.fila_media with _ | ⟨pidM, pM⟩ <;> rw [hM] at h
    · rcases hB : findCompatIn s.pedidos cat s.fila_baixa with _ | ⟨pidB, pB⟩ <;> rw [hB] at h
      · cases h
      · dsimp only at h
        injection h with h1
        injection h1 with hs hrest
        injection hrest with hpid hp
        subst hs; subst hpid; subst hp
        obtain ⟨hmem, hget, hat, hcat⟩ := findCompatIn_spec hB
        refine ⟨rfl, rfl, rfl, rfl, List.Perm.refl _, List.Perm.refl _, rotateTo_perm hmem,
          ?_, hget, hat, hcat⟩
        have hmm : pidB ∈ rotateTo s.fila_baixa pidB := (rotateTo_perm hmem).mem_iff.2 hmem
        simp [filaIds, hmm]
    · dsimp only at h
      injection h with h1
      injection h1 with hs hrest
      injection hrest with hpid hp
      subst hs; subst hpid; subst hp
      obtain ⟨hmem, hget, hat, hcat⟩ := findCompatIn_spec hM
      refine ⟨rfl, rfl, rfl, rfl, List.Perm.refl _, rotateTo_perm hmem, List.Perm.refl _,
        ?_, hget, hat, hcat⟩
      have hmm : pidM ∈ rotateTo s.fila_media pidM := (rotateTo_perm hmem).mem_iff.2 hmem
      simp [filaIds, hmm]
  · dsimp only at h
    injection h with h1
    injection h1 with hs hrest
    injection hrest with hpid hp
    subst hs; subst hpid; subst hp
    obtain ⟨hmem, hget, hat, hcat⟩ := findCompatIn_spec hA
    refine ⟨rfl, rfl, rfl, rfl, rotateTo_perm hmem, List.Perm.refl _, List.Perm.refl _,
      ?_, hget, hat, hcat⟩
    have hmm : pidA ∈ rotateTo s.fila_alta pidA := (rotateTo_perm hmem).mem_iff.2 hmem
    simp [filaIds, hmm]

theorem promover_medida {s : Sistema} {cat : String} {s1 : Sistema} {pid : Nat} {p : Pedido}
    (h : promover s cat = some (s1, pid, p)) : medida s1 cat = medida s cat := by
  obtain ⟨he, -, -, -, ha, hm, hb, -⟩ := promover_spec h
  simp [medida, filasLen, he, ha.length_eq, hm.length_eq, hb.length_eq]

/-! ### The termination measure decreases at every continuing iteration -/

theorem popFrontIfEq_sublist (l : List Nat) (pid : Nat) :
    List.Sublist (popFrontIfEq l pid) l := by
  cases l with
  | nil => simp [popFrontIfEq]
  | cons x t =>
    by_cases h : x = pid
    · simp only [popFrontIfEq, if_pos h]
      exact List.sublist_cons_self x t
    · simp [popFrontIfEq, h]

theorem popFronts_medida {s : Sistema} {pid : Nat} (h : prox_pedido s = some pid)
    (cat : String) : medida (popFronts s pid) cat < medida s cat := by
  have hla := (popFrontIfEq_sublist s.fila_alta pid).length_le
  have hlm := (popFrontIfEq_sublist s.fila_media pid).length_le
  have hlb := (popFrontIfEq_sublist s.fila_baixa pid).length_le
  rcases prox_pedido_some h with ⟨t, ht⟩ | ⟨ha, t, ht⟩ | ⟨ha, hm, t, ht⟩
  · have hpa : popFrontIfEq s.fila_alta pid = t := by rw [ht]; simp [popFrontIfEq]
    have hlen : s.fila_alta.length = t.length + 1 := by rw [ht]; rfl
    simp only [medida, filasLen, popFronts, hpa]
    omega
  · have hpa : popFrontIfEq s.fila_media pid = t := by rw [ht]; simp [popFrontIfEq]
    have hlen : s.fila_media.length = t.length + 1 := by rw [ht]; rfl
    simp only [medida, filasLen, popFronts, hpa]
    omega
  · have hpa : popFrontIfEq s.fila_baixa pid = t := by rw [ht]; simp [popFrontIfEq]
    have hlen : s.fila_baixa.length = t.length + 1 := by rw [ht]; rfl
    simp only [medida, filasLen, popFronts, hpa]
    omega

theorem removeDaPrimeiraFila_resto (s : Sistema) (pid : Nat) :
    (removeDaPrimeiraFila s pid).estoque = s.estoque ∧
    (removeDaPrimeiraFila s pid).pedidos = s.pedidos ∧
    (removeDaPrimeiraFila s pid).historico_alocacoes = s.historico_alocacoes ∧
    (removeDaPrimeiraFila s pid).proximo = s.proximo := by
  unfold removeDaPrimeiraFila
  split_ifs <;> exact ⟨rfl, rfl, rfl, rfl⟩

theorem removeDaPrimeiraFila_filasLen {s : Sistema} {pid : Nat} (h : pid ∈ filaIds s) :
    filasLen (removeDaPrimeiraFila s pid) + 1 = filasLen s := by
  unfold filaIds at h
  unfold removeDaPrimeiraFila
  by_cases h1 : pid ∈ s.fila_alta
  · have e := List.length_erase_of_mem h1
    have l1 := List.length_pos_of_mem h1
    simp only [if_pos h1]
    simp [filasLen]
    omega
  · by_cases h2 : pid ∈ s.fila_media
    · have e := List.length_erase_of_mem h2
      have l1 := List.length_pos_of_mem h2
      simp only [if_neg h1, if_pos h2]
      simp [filasLen]
      omega
    · have h3 : pid ∈ s.fila_baixa := by
        rcases List.mem_append.1 h with ham | hb
        · rcases List.mem_append.1 ham with ha | hm
          · exact absurd ha h1
          · exact absurd hm h2
        · exact hb
      have e := List.length_erase_of_mem h3
      have l1 := List.length_pos_of_mem h3
      simp only [if_neg h1, if_neg h2, if_pos h3]
      simp [filasLen]
      omega

theorem remove_medida {s3 : Sistema} {pid : Nat} (cat : String) (hm : pid ∈ filaIds s3) :
    medida (removeDaPrimeiraFila s3 pid) cat + 1 = medida s3 cat := by
  obtain ⟨he, -, -, -⟩ := removeDaPrimeiraFila_resto s3 pid
  have hf := removeDaPrimeiraFila_filasLen hm
  simp only [medida, he]
  omega

theorem medida_remove_lt {R s : Sistema} {pid : Nat} (cat : String) (hm : pid ∈ filaIds R)
    (hflen : filasLen R = filasLen s)
    (hstock : (estoqueGet R.estoque cat).length ≤ (estoqueGet s.estoque cat).length) :
    medida (removeDaPrimeiraFila R pid) cat < medida s cat := by
  have hr := remove_medida cat hm
  simp only [medida] at hr ⊢
  omega

theorem medida_lt_of {R s : Sistema} (cat : String) (hflen : filasLen R = filasLen s)
    (hstock : (estoqueGet R.estoque cat).length < (estoqueGet s.estoque cat).length) :
    medida R cat < medida s cat := by
  simp only [medida]
  omega

theorem alocar_medida {s : Sistema} {cat : String} {pid : Nat} {p : Pedido} {s' : Sistema}
    (hmem : pid ∈ filaIds s) (h : alocar s cat pid p = (s', true)) :
    medida s' cat < medida s cat := by
  unfold alocar at h
  rcases hE : estoqueGet s.estoque cat with _ | ⟨item, resto⟩ <;> rw [hE] at h <;>
    dsimp only at h
  · simp at h
  · split_ifs at h with hc1 hc2 hc2
    · injection h with hs _
      subst hs
      apply medida_remove_lt cat
      · simpa [filaIds] using hmem
      · simp [filasLen]
      · simp [estoqueGet_set_self, hE]
    · injection h with hs _
      subst hs
      apply medida_remove_lt cat
      · simpa [filaIds] using hmem
      · simp [filasLen]
      · simp [estoqueGet_set_self, hE]
    · injection h with hs _
      subst hs
      apply medida_lt_of cat
      · simp [filasLen]
      · simp only [estoqueGet_set_self, hE, List.length_cons]
        omega
    · exfalso
      rcases min_choice item.quantidade p.quantidade with hm | hm <;> rw [hm] at hc1 hc2 <;>
        omega

theorem passo_true_medida {s : Sistema} {cat : String} {s' : Sistema}
    (h : passo s cat = (s', true)) : medida s' cat < medida s cat := by
  unfold passo at h
  rcases hP : prox_pedido s with _ | pid <;> rw [hP] at h <;> dsimp only at h
  · simp at h
  · rcases hG : pedidosGet s.pedidos pid with _ | p <;> rw [hG] at h <;> dsimp only at h
    · injection h with h1 _
      subst h1
      exact popFronts_medida hP cat
    · by_cases hat : p.atendido = true
      · rw [if_pos hat] at h
        injection h with h1 _
        subst h1
        exact popFronts_medida hP cat
      · rw [if_neg hat] at h
        by_cases hcat : p.categoria = cat
        · rw [if_pos hcat] at h
          exact alocar_medida (prox_pedido_mem hP) h
        · rw [if_neg hcat] at h
          rcases hPr : promover s cat with _ | ⟨s1, pid1, p1⟩ <;> rw [hPr] at h <;>
            dsimp only at h
          · simp at h
          · obtain ⟨-, -, -, -, -, -, -, hmem1, -⟩ := promover_spec hPr
            have hlt := alocar_medida hmem1 h
            rwa [promover_medida hPr] at hlt

/-! ### The fuelled loop stabilises at the measure -/

theorem alocLoop_stable : ∀ (f : Nat) (s : Sistema) (cat : String), medida s cat ≤ f →
    alocLoop f s cat = alocLoop (medida s cat) s cat := by
  intro f
  induction f using Nat.strong_induction_on with
  | _ f ih =>
    intro s cat hf
    have h1 : 1 ≤ medida s cat := by
      simp only [medida]
      omega
    obtain ⟨j, rfl⟩ : ∃ j, f = j + 1 := ⟨f - 1, by omega⟩
    obtain ⟨k, hk⟩ : ∃ k, medida s cat = k + 1 := ⟨medida s cat - 1, by omega⟩
    rw [hk]
    rw [alocLoop, alocLoop]
    rcases hp : passo s cat with ⟨s1, b⟩
    cases b
    · rfl
    · dsimp only
      have hd := passo_true_medida hp
      rw [ih j (by omega) s1 cat (by omega), ih k (by omega) s1 cat (by omega)]

theorem alocLoop_adequate {s : Sistema} {cat : String} {f : Nat} (h : medida s cat ≤ f) :
    alocLoop f s cat = tentar_alocar s cat := by
  rw [tentar_alocar]
  exact alocLoop_stable f s cat h

theorem tentar_break {s : Sistema} {cat : String} {s1 : Sistema}
    (h : passo s cat = (s1, false)) : tentar_alocar s cat = s1 := by
  rw [tentar_alocar]
  obtain ⟨k, hk⟩ : ∃ k, medida s cat = k + 1 := ⟨medida s cat - 1, by simp only [medida]; omega⟩
  rw [hk, alocLoop, h]

theorem tentar_step {s : Sistema} {cat : String} {s1 : Sistema}
    (h : passo s cat = (s1, true)) : tentar_alocar s cat = tentar_alocar s1 cat := by
  have hd := passo_true_medida h
  rw [tentar_alocar]
  obtain ⟨k, hk⟩ : ∃ k, medida s cat = k + 1 := ⟨medida s cat - 1, by simp only [medida]; omega⟩
  rw [hk, alocLoop, h]
  dsimp only
  exact alocLoop_adequate (by omega)

/-! ### Invariant preservation -/

theorem filaIds_popFronts_sublist (s : Sistema) (pid : Nat) :
    List.Sublist (filaIds (popFronts s pid)) (filaIds s) := by
  simp only [filaIds, popFronts]
  exact ((popFrontIfEq_sublist _ _).append (popFrontIfEq_sublist _ _)).append
    (popFrontIfEq_sublist _ _)

theorem filaIds_remove_sublist (s : Sistema) (pid : Nat) :
    List.Sublist (filaIds (removeDaPrimeiraFila s pid)) (filaIds s) := by
  unfold removeDaPrimeiraFila
  split_ifs <;> simp only [filaIds] <;>
    first
      | exact ((List.erase_sublist _ _).append (List.Sublist.refl _)).append (List.Sublist.refl _)
      | exact ((List.Sublist.refl _).append (List.erase_sublist _ _)).append (List.Sublist.refl _)
      | exact ((List.Sublist.refl _).append (List.Sublist.refl _)).append (List.erase_sublist _ _)
      | exact List.Sublist.refl _

theorem nodup_alta_media_baixa {s : Sistema} (h : (filaIds s).Nodup) :
    s.fila_alta.Nodup ∧ s.fila_media.Nodup ∧ s.fila_baixa.Nodup ∧
    s.fila_alta.Disjoint s.fila_media ∧ s.fila_alta.Disjoint s.fila_baixa ∧
    s.fila_media.Disjoint s.fila_baixa := by
  unfold filaIds at h
  rw [List.nodup_append] at h
  obtain ⟨h12, h3, hd⟩ := h
  rw [List.nodup_append] at h12
  obtain ⟨h1, h2, hd12⟩ := h12
  refine ⟨h1, h2, h3, hd12, ?_, ?_⟩
  · intro a ha hb
    exact hd (List.mem_append_left _ ha) hb
  · intro a ha hb
    exact hd (List.mem_append_right _ ha) hb

theorem filaIds_remove_not_mem {s : Sistema} {pid : Nat} (h : (filaIds s).Nodup) :
    pid ∉ filaIds (removeDaPrimeiraFila s pid) ∨ pid ∉ filaIds s := by
  obtain ⟨h1, h2, h3, d12, d13, d23⟩ := nodup_alta_media_baixa h
  unfold removeDaPrimeiraFila
  by_cases ha : pid ∈ s.fila_alta
  · left
    simp only [if_pos ha, filaIds]
    intro hm
    rcases List.mem_append.1 hm with hm12 | hm3
    · rcases List.mem_append.1 hm12 with hm1 | hm2
      · exact (List.Nodup.mem_erase_iff h1).1 hm1 |>.1 rfl
      · exact d12 ha hm2
    · exact d13 ha hm3
  · by_cases hb : pid ∈ s.fila_media
    · left
      simp only [if_neg ha, if_pos hb, filaIds]
      intro hm
      rcases List.mem_append.1 hm with hm12 | hm3
      · rcases List.mem_append.1 hm12 with hm1 | hm2
        · exact ha hm1
        · exact (List.Nodup.mem_erase_iff h2).1 hm2 |>.1 rfl
      · exact d23 hb hm3
    · by_cases hc : pid ∈ s.fila_baixa
      · left
        simp only [if_neg ha, if_neg hb, if_pos hc, filaIds]
        intro hm
        rcases List.mem_append.1 hm with hm12 | hm3
        · rcases List.mem_append.1 hm12 with hm1 | hm2
          · exact ha hm1
          · exact hb hm2
        · exact (List.Nodup.mem_erase_iff h3).1 hm3 |>.1 rfl
      · right
        intro hm
        rcases List.mem_append.1 hm with hm12 | hm3
        · rcases List.mem_append.1 hm12 with hm1 | hm2
          · exact ha hm1
          · exact hb hm2
        · exact hc hm3

theorem Invar_popFronts {s : Sistema} (inv : Invar s) (pid : Nat) :
    Invar (popFronts s pid) := by
  have hsub := filaIds_popFronts_sublist s pid
  refine ⟨hsub.nodup inv.nodup, ?_, inv.estoquePos, inv.histPos, inv.pedChave⟩
  intro pid' hmem
  exact inv.vivos pid' (hsub.subset hmem)

theorem Invar_promover {s : Sistema} {cat : String} {s1 : Sistema} {pid : Nat} {p : Pedido}
    (inv : Invar s) (h : promover s cat = some (s1, pid, p)) : Invar s1 := by
  obtain ⟨he, hp, hh, hx, pa, pm, pb, -, -, -, -⟩ := promover_spec h
  have hperm : (filaIds s1).Perm (filaIds s) := by
    unfold filaIds
    exact (pa.append pm).append pb
  refine ⟨hperm.nodup_iff.2 inv.nodup, ?_, ?_, ?_, ?_⟩
  · intro pid' hmem
    rw [hp]
    exact inv.vivos pid' (hperm.subset hmem)
  · intro cat' it hit
    rw [he] at hit
    exact inv.estoquePos cat' it hit
  · intro a hmem
    rw [hh] at hmem
    exact inv.histPos a hmem
  · intro pid' p' hget
    rw [hp] at hget
    have := inv.pedChave pid' p' hget
    rw [hx]
    exact this

theorem Invar_commit_keep {s R : Sistema}
    (hfa : R.fila_alta = s.fila_alta) (hfm : R.fila_media = s.fila_media)
    (hfb : R.fila_baixa = s.fila_baixa) (hnodup : (filaIds s).Nodup)
    (hviv : ∀ pid' ∈ filaIds s, ∃ p, pedidosGet R.pedidos pid' = some p ∧
      p.atendido = false ∧ 0 < p.quantidade)
    (hstq : ∀ cat' : String, ∀ it ∈ estoqueGet R.estoque cat', 0 < it.quantidade)
    (hhis : ∀ a ∈ R.historico_alocacoes, 0 < a.quantidade)
    (hped : ∀ pid' p', pedidosGet R.pedidos pid' = some p' →
      0 ≤ p'.quantidade ∧ p'.id = pid' ∧ pid' < R.proximo) : Invar R := by
  have hfil : filaIds R = filaIds s := by simp [filaIds, hfa, hfm, hfb]
  refine ⟨?_, ?_, hstq, hhis, hped⟩
  · rw [hfil]; exact hnodup
  · intro pid' hmem
    exact hviv pid' (hfil ▸ hmem)

theorem Invar_commit_remove {s R : Sistema} {pid : Nat}
    (hfa : R.fila_alta = s.fila_alta) (hfm : R.fila_media = s.fila_media)
    (hfb : R.fila_baixa = s.fila_baixa) (hnodup : (filaIds s).Nodup) (hmemS : pid ∈ filaIds s)
    (hviv : ∀ pid' ∈ filaIds s, pid' ≠ pid → ∃ p, pedidosGet R.pedidos pid' = some p ∧
      p.atendido = false ∧ 0 < p.quantidade)
    (hstq : ∀ cat' : String, ∀ it ∈ estoqueGet R.estoque cat', 0 < it.quantidade)
    (hhis : ∀ a ∈ R.historico_alocacoes, 0 < a.quantidade)
    (hped : ∀ pid' p', pedidosGet R.pedidos pid' = some p' →
      0 ≤ p'.quantidade ∧ p'.id = pid' ∧ pid' < R.proximo) :
    Invar (removeDaPrimeiraFila R pid) := by
  have hfil : filaIds R = filaIds s := by simp [filaIds, hfa, hfm, hfb]
  have hRnodup : (filaIds R).Nodup := by rw [hfil]; exact hnodup
  obtain ⟨hre, hrp, hrh, hrx⟩ := removeDaPrimeiraFila_resto R pid
  have hnm : pid ∉ filaIds (removeDaPrimeiraFila R pid) := by
    rcases filaIds_remove_not_mem hRnodup with hnm | hnm
    · exact hnm
    · exact absurd (hfil ▸ hmemS) hnm
  refine ⟨(filaIds_remove_sublist R pid).nodup hRnodup, ?_, ?_, ?_, ?_⟩
  · intro pid' hmem
    have hms : pid' ∈ filaIds s := hfil ▸ (filaIds_remove_sublist R pid).subset hmem
    have hne : pid' ≠ pid := by
      intro hcon
      exact hnm (hcon ▸ hmem)
    rw [hrp]
    exact hviv pid' hms hne
  · intro cat' it hit
    rw [hre] at hit
    exact hstq cat' it hit
  · intro a hmem
    rw [hrh] at hmem
    exact hhis a hmem
  · intro pid' p' hget
    rw [hrp] at hget
    rw [hrx]
    exact hped pid' p' hget

theorem Invar_alocar {s : Sistema} {cat : String} {pid : Nat} {p : Pedido} {s' : Sistema}
    {b : Bool} (inv : Invar s) (hget : pedidosGet s.pedidos pid = some p)
    (hmem : pid ∈ filaIds s) (h : alocar s cat pid p = (s', b)) : Invar s' := by
  unfold alocar at h
  rcases hE : estoqueGet s.estoque cat with _ | ⟨item, resto⟩ <;> rw [hE] at h <;> dsimp only at h
  · injection h with h1 _
    subst h1
    exact inv
  · obtain ⟨p', hget', hat, hq⟩ := inv.vivos pid hmem
    rw [hget] at hget'
    have hpp : p' = p := (Option.some.inj hget').symm
    rw [hpp] at hat hq
    have hitem : 0 < item.quantidade :=
      inv.estoquePos cat item (by rw [hE]; exact List.mem_cons_self _ _)
    have hmin : 0 < min item.quantidade p.quantidade := lt_min hitem hq
    have hminle : min item.quantidade p.quantidade ≤ p.quantidade := min_le_right _ _
    obtain ⟨hq0, hid, hlt⟩ := inv.pedChave pid p hget
    have hnovoPos : ∀ it ∈ (if item.quantidade - min item.quantidade p.quantidade ≤ 0
        then resto
        else { item with quantidade := item.quantidade - min item.quantidade p.quantidade }
          :: resto), 0 < it.quantidade := by
      split_ifs with hci
      · intro it hit
        exact inv.estoquePos cat it (by rw [hE]; exact List.mem_cons_of_mem _ hit)
      · intro it hit
        rcases List.mem_cons.1 hit with rfl | hit'
        · dsimp only
          omega
        · exact inv.estoquePos cat it (by rw [hE]; exact List.mem_cons_of_mem _ hit')
    by_cases hc2 : p.quantidade - min item.quantidade p.quantidade ≤ 0
    · rw [if_pos hc2] at h
      injection h with hs _
      subst hs
      apply Invar_commit_remove (s := s)
      · rfl
      · rfl
      · rfl
      · exact inv.nodup
      · exact hmem
      · intro pid' hm' hne
        dsimp only
        rw [pedidosGet_set_ne _ hne]
        exact inv.vivos pid' hm'
      · intro cat' it hit
        dsimp only at hit
        by_cases hcc : cat' = cat
        · subst hcc
          rw [estoqueGet_set_self] at hit
          exact hnovoPos it hit
        · rw [estoqueGet_set_ne _ _ hcc] at hit
          exact inv.estoquePos cat' it hit
      · intro a hmem'
        dsimp only at hmem'
        rcases List.mem_cons.1 hmem' with rfl | hmem''
        · exact hmin
        · exact inv.histPos a hmem''
      · intro pid' p' hget'
        dsimp only at hget' ⊢
        rw [pedidosGet_set] at hget'
        by_cases hne : pid' = pid
        · subst hne
          rw [if_pos rfl, hget] at hget'
          obtain rfl : _ = p' := Option.some.inj hget'
          refine ⟨by dsimp only; omega, by dsimp only; exact hid, by omega⟩
        · rw [if_neg hne] at hget'
          obtain ⟨ha1, ha2, ha3⟩ := inv.pedChave pid' p' hget'
          exact ⟨ha1, ha2, by omega⟩
    · rw [if_neg hc2] at h
      injection h with hs _
      subst hs
      apply Invar_commit_keep (s := s)
      · rfl
      · rfl
      · rfl
      · exact inv.nodup
      · intro pid' hm'
        dsimp only
        by_cases hne : pid' = pid
        · subst hne
          refine ⟨_, pedidosGet_set_self _ hget, ?_, ?_⟩
          · dsimp only
            exact hat
          · dsimp only
            omega
        · rw [pedidosGet_set_ne _ hne]
          exact inv.vivos pid' hm'
      · intro cat' it hit
        dsimp only at hit
        by_cases hcc : cat' = cat
        · subst hcc
          rw [estoqueGet_set_self] at hit
          exact hnovoPos it hit
        · rw [estoqueGet_set_ne _ _ hcc] at hit
          exact inv.estoquePos cat' it hit
      · intro a hmem'
        dsimp only at hmem'
        rcases List.mem_cons.1 hmem' with rfl | hmem''
        · exact hmin
        · exact inv.histPos a hmem''
      · intro pid' p' hget'
        dsimp only at hget' ⊢
        rw [pedidosGet_set] at hget'
        by_cases hne : pid' = pid
        · subst hne
          rw [if_pos rfl, hget] at hget'
          obtain rfl : _ = p' := Option.some.inj hget'
          refine ⟨by dsimp only; omega, by dsimp only; exact hid, by omega⟩
        · rw [if_neg hne] at hget'
          obtain ⟨ha1, ha2, ha3⟩ := inv.pedChave pid' p' hget'
          exact ⟨ha1, ha2, by omega⟩

theorem Invar_passo {s : Sistema} {cat : String} {s' : Sistema} {b : Bool}
    (inv : Invar s) (h : passo s cat = (s', b)) : Invar s' := by
  unfold passo at h
  rcases hP : prox_pedido s with _ | pid <;> rw [hP] at h <;> dsimp only at h
  · injection h with h1 _
    subst h1
    exact inv
  · rcases hG : pedidosGet s.pedidos pid with _ | p <;> rw [hG] at h <;> dsimp only at h
    · injection h with h1 _
      subst h1
      exact Invar_popFronts inv pid
    · by_cases hat : p.atendido = true
      · rw [if_pos hat] at h
        injection h with h1 _
        subst h1
        exact Invar_popFronts inv pid
      · rw [if_neg hat] at h
        by_cases hcat : p.categoria = cat
        · rw [if_pos hcat] at h
          exact Invar_alocar inv hG (prox_pedido_mem hP) h
        · rw [if_neg hcat] at h
          rcases hPr : promover s cat with _ | ⟨s1, pid1, p1⟩ <;> rw [hPr] at h <;>
            dsimp only at h
          · injection h with h1 _
            subst h1
            exact inv
          · obtain ⟨-, hpd, -, -, -, -, -, hmem1, hget1, -, -⟩ := promover_spec hPr
            have hget1' : pedidosGet s1.pedidos pid1 = some p1 := by rw [hpd]; exact hget1
            exact Invar_alocar (Invar_promover inv hPr) hget1' hmem1 h

theorem Invar_alocLoop : ∀ (f : Nat) (s : Sistema) (cat : String), Invar s →
    Invar (alocLoop f s cat) := by
  intro f
  induction f with
  | zero => intro s cat inv; exact inv
  | succ f ih =>
    intro s cat inv
    rw [alocLoop]
    rcases hp : passo s cat with ⟨s1, b⟩
    have inv1 := Invar_passo inv hp
    cases b <;> dsimp only
    · exact inv1
    · exact ih s1 cat inv1

theorem Invar_tentar {s : Sistema} {cat : String} (inv : Invar s) :
    Invar (tentar_alocar s cat) := by
  rw [tentar_alocar]
  exact Invar_alocLoop _ s cat inv

theorem Invar_vazio : Invar vazio := by
  refine ⟨?_, ?_, ?_, ?_, ?_⟩ <;> simp [vazio, filaIds, estoqueGet, pedidosGet]

theorem perm_insert1 (x : Nat) (l1 l2 l3 : List Nat) :
    (((l1 ++ [x]) ++ l2) ++ l3).Perm (x :: ((l1 ++ l2) ++ l3)) := by
  have e1 : ((l1 ++ [x]) ++ l2) ++ l3 = l1 ++ (x :: (l2 ++ l3)) := by
    simp [List.append_assoc]
  have e2 : x :: ((l1 ++ l2) ++ l3) = x :: (l1 ++ (l2 ++ l3)) := by
    simp [List.append_assoc]
  rw [e1, e2]
  exact List.perm_middle

theorem perm_insert2 (x : Nat) (l1 l2 l3 : List Nat) :
    ((l1 ++ (l2 ++ [x])) ++ l3).Perm (x :: ((l1 ++ l2) ++ l3)) := by
  have e1 : (l1 ++ (l2 ++ [x])) ++ l3 = (l1 ++ l2) ++ (x :: l3) := by
    simp [List.append_assoc]
  rw [e1]
  exact List.perm_middle

theorem perm_insert3 (x : Nat) (l1 l2 l3 : List Nat) :
    ((l1 ++ l2) ++ (l3 ++ [x])).Perm (x :: ((l1 ++ l2) ++ l3)) := by
  have e1 : (l1 ++ l2) ++ (l3 ++ [x]) = ((l1 ++ l2) ++ l3) ++ [x] := by
    simp [List.append_assoc]
  rw [e1]
  exact List.perm_append_comm

theorem perm_front2 (x : Nat) (l1 l2 l3 : List Nat) :
    ((l1 ++ (x :: l2)) ++ l3).Perm (x :: ((l1 ++ l2) ++ l3)) := by
  have e1 : (l1 ++ (x :: l2)) ++ l3 = l1 ++ (x :: (l2 ++ l3)) := by
    simp [List.append_assoc]
  have e2 : x :: ((l1 ++ l2) ++ l3) = x :: (l1 ++ (l2 ++ l3)) := by
    simp [List.append_assoc]
  rw [e1, e2]
  exact List.perm_middle

theorem perm_front3 (x : Nat) (l1 l2 l3 : List Nat) :
    ((l1 ++ l2) ++ (x :: l3)).Perm (x :: ((l1 ++ l2) ++ l3)) :=
  List.perm_middle

theorem Invar_enqueue {s R : Sistema} {x : Nat}
    (hperm : (filaIds R).Perm (x :: filaIds s))
    (hnodup : (filaIds s).Nodup) (hfresh : x ∉ filaIds s)
    (hviv : ∀ pid' ∈ x :: filaIds s, ∃ p, pedidosGet R.pedidos pid' = some p ∧
      p.atendido = false ∧ 0 < p.quantidade)
    (hstq : ∀ cat' : String, ∀ it ∈ estoqueGet R.estoque cat', 0 < it.quantidade)
    (hhis : ∀ a ∈ R.historico_alocacoes, 0 < a.quantidade)
    (hped : ∀ pid' p', pedidosGet R.pedidos pid' = some p' →
      0 ≤ p'.quantidade ∧ p'.id = pid' ∧ pid' < R.proximo) : Invar R := by
  refine ⟨hperm.nodup_iff.2 (List.nodup_cons.2 ⟨hfresh, hnodup⟩), ?_, hstq, hhis, hped⟩
  intro pid' hmem
  exact hviv pid' (hperm.subset hmem)

theorem estoquePos_set_append {es : List (String × List ItemDoacao)}
    (hpos : ∀ cat' : String, ∀ it ∈ estoqueGet es cat', 0 < it.quantidade)
    {cat0 : String} {item : ItemDoacao} (hq : 0 < item.quantidade) :
    ∀ cat' : String, ∀ it ∈ estoqueGet (estoqueSet es cat0 (estoqueGet es cat0 ++ [item])) cat',
      0 < it.quantidade := by
  intro cat' it hit
  by_cases hcc : cat' = cat0
  · subst hcc
    rw [estoqueGet_set_self] at hit
    rcases List.mem_append.1 hit with hold | hnew
    · exact hpos cat' it hold
    · rw [List.mem_singleton.1 hnew]
      exact hq
  · rw [estoqueGet_set_ne _ _ hcc] at hit
    exact hpos cat' it hit

theorem Invar_registrar {s : Sistema} (inv : Invar s) (nomeItem cat : String) {qtd : Int}
    (hq : 0 < qtd) : Invar (registrar_doacao s nomeItem cat qtd) := by
  unfold registrar_doacao
  dsimp only
  apply Invar_tentar
  apply Invar_commit_keep (s := s)
  · rfl
  · rfl
  · rfl
  · exact inv.nodup
  · intro pid' hm'
    dsimp only
    exact inv.vivos pid' hm'
  · intro cat' it hit
    dsimp only at hit
    exact estoquePos_set_append inv.estoquePos hq cat' it hit
  · intro a hm'
    dsimp only at hm'
    exact inv.histPos a hm'
  · intro pid' p' hg'
    dsimp only at hg' ⊢
    obtain ⟨a1, a2, a3⟩ := inv.pedChave pid' p' hg'
    exact ⟨a1, a2, by omega⟩

theorem fresh_not_queued {s : Sistema} (inv : Invar s) : s.proximo ∉ filaIds s := by
  intro hcon
  obtain ⟨p0, hg0, -, -⟩ := inv.vivos _ hcon
  obtain ⟨-, -, hlt0⟩ := inv.pedChave _ _ hg0
  exact lt_irrefl _ hlt0

theorem Invar_cadastrar {s : Sistema} (inv : Invar s) (sol cat : String) {qtd : Int}
    (hq : 0 < qtd) (pr : String) : Invar (cadastrar_pedido s sol cat qtd pr) := by
  have hfresh := fresh_not_queued inv
  unfold cadastrar_pedido
  dsimp only
  apply Invar_tentar
  split_ifs with h1 h2
  case pos =>
    apply Invar_enqueue (s := s) (x := s.proximo)
    · simpa [filaIds] using perm_insert1 s.proximo s.fila_alta s.fila_media s.fila_baixa
    · exact inv.nodup
    · exact hfresh
    · intro pid' hm'
      dsimp only
      rw [pedidosGet_cons]
      by_cases hne : s.proximo = pid'
      · rw [if_pos hne]
        exact ⟨_, rfl, rfl, hq⟩
      · rw [if_neg hne]
        rcases List.mem_cons.1 hm' with heq | hm''
        · exact absurd heq.symm hne
        · exact inv.vivos pid' hm''
    · intro cat' it hit
      dsimp only at hit
      exact inv.estoquePos cat' it hit
    · intro a hm'
      dsimp only at hm'
      exact inv.histPos a hm'
    · intro pid' p' hg'
      dsimp only at hg' ⊢
      rw [pedidosGet_cons] at hg'
      by_cases hne : s.proximo = pid'
      · rw [if_pos hne] at hg'
        have hp' := (Option.some.inj hg').symm
        subst hp'
        exact ⟨le_of_lt hq, hne, by omega⟩
      · rw [if_neg hne] at hg'
        obtain ⟨a1, a2, a3⟩ := inv.pedChave pid' p' hg'
        exact ⟨a1, a2, by omega⟩
  case pos =>
    apply Invar_enqueue (s := s) (x := s.proximo)
    · simpa [filaIds] using perm_insert2 s.proximo s.fila_alta s.fila_media s.fila_baixa
    · exact inv.nodup
    · exact hfresh
    · intro pid' hm'
      dsimp only
      rw [pedidosGet_cons]
      by_cases hne : s.proximo = pid'
      · rw [if_pos hne]
        exact ⟨_, rfl, rfl, hq⟩
      · rw [if_neg hne]
        rcases List.mem_cons.1 hm' with heq | hm''
        · exact absurd heq.symm hne
        · exact inv.vivos pid' hm''
    · intro cat' it hit
      dsimp only at hit
      exact inv.estoquePos cat' it hit
    · intro a hm'
      dsimp only at hm'
      exact inv.histPos a hm'
    · intro pid' p' hg'
      dsimp only at hg' ⊢
      rw [pedidosGet_cons] at hg'
      by_cases hne : s.proximo = pid'
      · rw [if_pos hne] at hg'
        have hp' := (Option.some.inj hg').symm
        subst hp'
        exact ⟨le_of_lt hq, hne, by omega⟩
      · rw [if_neg hne] at hg'
        obtain ⟨a1, a2, a3⟩ := inv.pedChave pid' p' hg'
        exact ⟨a1, a2, by omega⟩
  case neg =>
    apply Invar_enqueue (s := s) (x := s.proximo)
    · simpa [filaIds] using perm_insert3 s.proximo s.fila_alta s.fila_media s.fila_baixa
    · exact inv.nodup
    · exact hfresh
    · intro pid' hm'
      dsimp only
      rw [pedidosGet_cons]
      by_cases hne : s.proximo = pid'
      · rw [if_pos hne]
        exact ⟨_, rfl, rfl, hq⟩
      · rw [if_neg hne]
        rcases List.mem_cons.1 hm' with heq | hm''
        · exact absurd heq.symm hne
        · exact inv.vivos pid' hm''
    · intro cat' it hit
      dsimp only at hit
      exact inv.estoquePos cat' it hit
    · intro a hm'
      dsimp only at hm'
      exact inv.histPos a hm'
    · intro pid' p' hg'
      dsimp only at hg' ⊢
      rw [pedidosGet_cons] at hg'
      by_cases hne : s.proximo = pid'
      · rw [if_pos hne] at hg'
        have hp' := (Option.some.inj hg').symm
        subst hp'
        exact ⟨le_of_lt hq, hne, by omega⟩
      · rw [if_neg hne] at hg'
        obtain ⟨a1, a2, a3⟩ := inv.pedChave pid' p' hg'
        exact ⟨a1, a2, by omega⟩

theorem Invar_desfazer {s : Sistema} (inv : Invar s) :
    Invar (desfazer_ultima_alocacao s).1 := by
  unfold desfazer_ultima_alocacao
  rcases hH : s.historico_alocacoes with _ | ⟨aloc, resto⟩ <;> dsimp only
  · exact inv
  · have haloc : 0 < aloc.quantidade :=
      inv.histPos aloc (by rw [hH]; exact List.mem_cons_self _ _)
    have hrestoPos : ∀ a ∈ resto, 0 < a.quantidade := by
      intro a ha
      exact inv.histPos a (by rw [hH]; exact List.mem_cons_of_mem _ ha)
    rcases hG : pedidosGet s.pedidos aloc.pedido_id with _ | p <;> dsimp only
    · apply Invar_commit_keep (s := s)
      · rfl
      · rfl
      · rfl
      · exact inv.nodup
      · intro pid' hm'
        dsimp only
        exact inv.vivos pid' hm'
      · intro cat' it hit
        dsimp only at hit
        exact estoquePos_set_append inv.estoquePos haloc cat' it hit
      · intro a hm'
        dsimp only at hm'
        exact hrestoPos a hm'
      · intro pid' p' hg'
        dsimp only at hg' ⊢
        exact inv.pedChave pid' p' hg'
    · obtain ⟨hq0, hid, hlt⟩ := inv.pedChave _ _ hG
      by_cases hat : p.atendido = true
      · rw [if_pos hat]
        have hfresh : aloc.pedido_id ∉ filaIds s := by
          intro hcon
          obtain ⟨p0, hg0, hat0, -⟩ := inv.vivos _ hcon
          rw [hG] at hg0
          have hp0 : p0 = p := (Option.some.inj hg0).symm
          rw [hp0, hat] at hat0
          exact Bool.noConfusion hat0
        split_ifs with hp1 hp2 <;>
        · apply Invar_enqueue (s := s) (x := p.id)
          · first
              | simpa [filaIds] using
                  List.Perm.refl (p.id :: ((s.fila_alta ++ s.fila_media) ++ s.fila_baixa))
              | simpa [filaIds] using perm_front2 p.id s.fila_alta s.fila_media s.fila_baixa
              | simpa [filaIds] using perm_front3 p.id s.fila_alta s.fila_media s.fila_baixa
          · exact inv.nodup
          · rw [hid]; exact hfresh
          · intro pid' hm'
            dsimp only
            rcases List.mem_cons.1 hm' with heq | hm''
            · rw [heq, hid, pedidosGet_set_self _ hG]
              refine ⟨_, rfl, rfl, by dsimp only; omega⟩
            · have hne : pid' ≠ aloc.pedido_id := fun hcon => hfresh (hcon ▸ hm'')
              rw [pedidosGet_set_ne _ hne]
              exact inv.vivos pid' hm''
          · intro cat' it hit
            dsimp only at hit
            exact estoquePos_set_append inv.estoquePos haloc cat' it hit
          · intro a hm'
            dsimp only at hm'
            exact hrestoPos a hm'
          · intro pid' p' hg'
            dsimp only at hg' ⊢
            rw [pedidosGet_set] at hg'
            by_cases hne : pid' = aloc.pedido_id
            · rw [if_pos hne, hG] at hg'
              have hp' := Option.some.inj hg'
              rw [← hp']
              refine ⟨by dsimp only; omega, by dsimp only; rw [hid, hne], by rw [hne]; exact hlt⟩
            · rw [if_neg hne] at hg'
              exact inv.pedChave pid' p' hg'
      · rw [if_neg hat]
        apply Invar_commit_keep (s := s)
        · rfl
        · rfl
        · rfl
        · exact inv.nodup
        · intro pid' hm'
          dsimp only
          by_cases hne : pid' = aloc.pedido_id
          · obtain ⟨p0, hg0, hat0, hq0'⟩ := inv.vivos pid' hm'
            rw [hne, hG] at hg0
            have hp0 : p0 = p := (Option.some.inj hg0).symm
            rw [hp0] at hat0 hq0'
            rw [hne, pedidosGet_set_self _ hG]
            refine ⟨_, rfl, hat0, by dsimp only; omega⟩
          · rw [pedidosGet_set_ne _ hne]
            exact inv.vivos pid' hm'
        · intro cat' it hit
          dsimp only at hit
          exact estoquePos_set_append inv.estoquePos haloc cat' it hit
        · intro a hm'
          dsimp only at hm'
          exact hrestoPos a hm'
        · intro pid' p' hg'
          dsimp only at hg' ⊢
          rw [pedidosGet_set] at hg'
          by_cases hne : pid' = aloc.pedido_id
          · rw [if_pos hne, hG] at hg'
            have hp' := Option.some.inj hg'
            rw [← hp']
            refine ⟨by dsimp only; omega, by dsimp only; rw [hid, hne], by rw [hne]; exact hlt⟩
          · rw [if_neg hne] at hg'
            exact inv.pedChave pid' p' hg'

theorem Reachable_Invar {s : Sistema} (h : Reachable s) : Invar s := by
  induction h with
  | vazio => exact Invar_vazio
  | doacao nomeItem cat qtd hr hq ih => exact Invar_registrar ih nomeItem cat hq
  | pedido sol cat qtd pr hr hq ih => exact Invar_cadastrar ih sol cat hq pr
  | desfaz hr ih => exact Invar_desfazer ih

/-! ### Claim theorems -/

/-- C1 (code_bug evidence): in the spec scenario (donate 10 units of `cat`,
request 4 at high priority, undo), `desfazer_ultima_alocacao` does restore
the request to 4 remaining units and requeue it, but it returns the 4 units
of stock to the synthetic category `Desconhecido` under a fabricated item
named `Item_recuperado_0`: category `cat` is left with 6 units instead of the
claimed 10, and the original category metadata is not preserved. -/
theorem undo_perde_categoria :
    cenarioUndo.historico_alocacoes =
      [{ id := 2, item_id := 0, pedido_id := 1, quantidade := 4, data := 2 }] ∧
    (pedidosGet cenarioUndoDepois.pedidos 1).map Pedido.quantidade = some 4 ∧
    (pedidosGet cenarioUndoDepois.pedidos 1).map Pedido.atendido = some false ∧
    cenarioUndoDepois.fila_alta = [1] ∧
    somaCategoria cenarioUndoDepois "cat" = 6 ∧
    (6 : Int) ≠ 10 ∧
    somaCategoria cenarioUndoDepois "Desconhecido" = 4 ∧
    (estoqueGet cenarioUndoDepois.estoque "Desconhecido").map ItemDoacao.nome =
      ["Item_recuperado_0"] ∧
    (estoqueGet cenarioUndoDepois.estoque "Desconhecido").map ItemDoacao.categoria =
      ["Desconhecido"] := by
  decide

/-- C2 (code_bug evidence): per-category conservation holds before the undo
(6 in stock plus 4 in the ledger equal the 10 donated to `cat`, and the only
ledger entry references item 0, which was donated to `cat`) but breaks after
it: the undone quantity migrates to `Desconhecido`, leaving category `cat`
with 6 + 0 instead of 10. -/
theorem conservacao_quebra_no_undo :
    somaCategoria cenarioUndo "cat" +
      (cenarioUndo.historico_alocacoes.map Alocacao.quantidade).sum = 10 ∧
    cenarioUndo.historico_alocacoes.map Alocacao.item_id = [0] ∧
    (estoqueGet cenarioUndo.estoque "cat").map ItemDoacao.id = [0] ∧
    cenarioUndoDepois.historico_alocacoes = [] ∧
    somaCategoria cenarioUndoDepois "cat" +
      (cenarioUndoDepois.historico_alocacoes.map Alocacao.quantidade).sum = 6 ∧
    ((6 : Int) ≠ 10) := by
  decide

/-- C5 (code_bug evidence): the engine accepts invalid input instead of
rejecting it: a donation of -5 units is stored as-is in the inventory, a
request with the unrecognized priority string `urgente` is silently enqueued
in the low-priority queue, and a request for 0 units is accepted and left
queued; no operation reports a failure. -/
theorem validacao_ausente :
    estoqueGet (registrar_doacao vazio "x" "cat" (-5)).estoque "cat" =
      [{ id := 0, nome := "x", categoria := "cat", quantidade := -5, data := 0 }] ∧
    (cadastrar_pedido vazio "r" "cat" 3 "urgente").fila_baixa = [0] ∧
    (pedidosGet (cadastrar_pedido vazio "r" "cat" 3 "urgente").pedidos 0).map
      Pedido.prioridade = some "urgente" ∧
    (pedidosGet (cadastrar_pedido vazio "r" "cat" 0 "alta").pedidos 0).map
      Pedido.quantidade = some 0 ∧
    (cadastrar_pedido vazio "r" "cat" 0 "alta").fila_alta = [0] := by
  decide

/-- C10: FIFO within a category on the spec scenario: after donating 5 then 3
units of Alimentos and requesting 4 at priority alta, exactly one allocation
of 4 units is committed, it draws on item 0 (the first, 5-unit donation),
the stock of Alimentos is [1, 3] totalling 4 with the older item still in
front, and the request is fully satisfied. -/
theorem fifo_na_categoria :
    (estoqueGet cenarioFifo.estoque "Alimentos").map ItemDoacao.quantidade = [1, 3] ∧
    (estoqueGet cenarioFifo.estoque "Alimentos").map ItemDoacao.id = [0, 1] ∧
    somaCategoria cenarioFifo "Alimentos" = 4 ∧
    cenarioFifo.historico_alocacoes.map Alocacao.quantidade = [4] ∧
    cenarioFifo.historico_alocacoes.map Alocacao.item_id = [0] ∧
    (pedidosGet cenarioFifo.pedidos 2).map Pedido.atendido = some true ∧
    (pedidosGet cenarioFifo.pedidos 2).map Pedido.quantidade = some 0 := by
  decide

/-- C3 (counterexample): the relocation is a cyclic rotation, not an
order-preserving extraction.  Promoting request 11 from the middle of the
queue [10, 11, 12] (matching for category A with empty stock) leaves the
queue [11, 12, 10]: with the promoted entry removed, the remaining entries
read [12, 10], no longer in their original order [10, 12]. -/
theorem promocao_reordena :
    (tentar_alocar estadoPromove "A").fila_media = [11, 12, 10] ∧
    (tentar_alocar estadoPromove "A").fila_media.erase 11 = [12, 10] ∧
    estadoPromove.fila_media.erase 11 = [10, 12] ∧
    ([12, 10] : List Nat) ≠ [10, 12] := by
  decide

/-- C3 (amended): when the matching engine promotes a matched non-front
request, it rotates that queue cyclically: the queue becomes the segment
from the matched request to the back followed by the segment that originally
preceded it, so relative order is preserved within each of the two segments
(and the queue stays a permutation of itself), but entries that preceded the
match end up behind those that followed it. -/
theorem promocao_rotaciona {s : Sistema} {cat : String} {s1 : Sistema} {pid : Nat}
    {p : Pedido} (h : promover s cat = some (s1, pid, p)) :
    ((s1.fila_alta = rotateTo s.fila_alta pid ∧ pid ∈ s.fila_alta ∧
        s1.fila_media = s.fila_media ∧ s1.fila_baixa = s.fila_baixa) ∨
      (s1.fila_media = rotateTo s.fila_media pid ∧ pid ∈ s.fila_media ∧
        s1.fila_alta = s.fila_alta ∧ s1.fila_baixa = s.fila_baixa) ∨
      (s1.fila_baixa = rotateTo s.fila_baixa pid ∧ pid ∈ s.fila_baixa ∧
        s1.fila_alta = s.fila_alta ∧ s1.fila_media = s.fila_media)) ∧
    ∀ (l : List Nat) (x : Nat), x ∈ l →
      rotateTo l x = l.dropWhile (fun z => z != x) ++ l.takeWhile (fun z => z != x) := by
  refine ⟨?_, fun l x hx => rotateTo_eq_of_mem hx⟩
  unfold promover at h
  rcases hA : findCompatIn s.pedidos cat s.fila_alta with _ | ⟨pidA, pA⟩ <;> rw [hA] at h
  · rcases hM : findCompatIn s.pedidos cat s.fila_media with _ | ⟨pidM, pM⟩ <;> rw [hM] at h
    · rcases hB : findCompatIn s.pedidos cat s.fila_baixa with _ | ⟨pidB, pB⟩ <;> rw [hB] at h
      · cases h
      · dsimp only at h
        injection h with h1
        injection h1 with hs hrest
        injection hrest with hpid hp
        subst hs; subst hpid; subst hp
        exact Or.inr (Or.inr ⟨rfl, (findCompatIn_spec hB).1, rfl, rfl⟩)
    · dsimp only at h
      injection h with h1
      injection h1 with hs hrest
      injection hrest with hpid hp
      subst hs; subst hpid; subst hp
      exact Or.inr (Or.inl ⟨rfl, (findCompatIn_spec hM).1, rfl, rfl⟩)
  · dsimp only at h
    injection h with h1
    injection h1 with hs hrest
    injection hrest with hpid hp
    subst hs; subst hpid; subst hp
    exact Or.inl ⟨rfl, (findCompatIn_spec hA).1, rfl, rfl⟩

/-- Witness for the amended C3 theorem at the concrete promotion of request
11 inside `estadoPromove`. -/
theorem promocao_rotaciona_witness :
    rotateTo [10, 11, 12] 11 =
      ([10, 11, 12] : List Nat).dropWhile (fun z => z != 11) ++
        ([10, 11, 12] : List Nat).takeWhile (fun z => z != 11) :=
  (promocao_rotaciona
    (by decide :
      promover estadoPromove "A" =
        some ({ estadoPromove with fila_media := [11, 12, 10] }, 11,
          { id := 11, solicitante := "a1", categoria := "A", quantidade := 1,
            prioridade := "media", data := 0, atendido := false }))).2
    [10, 11, 12] 11 (by decide)

/-- C9: the matching loop terminates on every finite state: every continuing
iteration strictly decreases the measure (category stock size plus total
queued demand entries), so the fuelled loop is already stable at the measure
and extra fuel never changes the result of `tentar_alocar`. -/
theorem matching_termina (s : Sistema) (cat : String) :
    (∀ s', passo s cat = (s', true) → medida s' cat < medida s cat) ∧
    (∀ k : Nat, alocLoop (medida s cat + k) s cat = tentar_alocar s cat) := by
  constructor
  · intro s' hp
    exact passo_true_medida hp
  · intro k
    exact alocLoop_adequate (by omega)

/-- Witness for C9 at `estadoMeio`, where the first iteration commits an
allocation and continues. -/
theorem matching_termina_witness :
    medida (passo estadoMeio "A").1 "A" < medida estadoMeio "A" ∧
    alocLoop (medida estadoMeio "A" + 3) estadoMeio "A" = tentar_alocar estadoMeio "A" := by
  constructor
  · exact (matching_termina estadoMeio "A").1 (passo estadoMeio "A").1 (by decide)
  · exact (matching_termina estadoMeio "A").2 3

/-- C6: whenever the engine commits an allocation (the sole allocation site,
`alocar`, reached with the category stock nonempty), the pushed ledger entry
allocates exactly `min` of the front stock unit's remaining quantity and the
paired request's remaining quantity, and hence never exceeds either side. -/
theorem alocacao_eh_min (s : Sistema) (cat : String) (pid : Nat) (p : Pedido)
    {item : ItemDoacao} {resto : List ItemDoacao}
    (hE : estoqueGet s.estoque cat = item :: resto) :
    (alocar s cat pid p).1.historico_alocacoes =
      { id := s.proximo, item_id := item.id, pedido_id := pid,
        quantidade := min item.quantidade p.quantidade, data := s.proximo }
        :: s.historico_alocacoes ∧
    min item.quantidade p.quantidade ≤ item.quantidade ∧
    min item.quantidade p.quantidade ≤ p.quantidade := by
  refine ⟨?_, min_le_left _ _, min_le_right _ _⟩
  unfold alocar
  rw [hE]
  dsimp only
  split_ifs
  · exact (removeDaPrimeiraFila_resto _ _).2.2.1
  · exact (removeDaPrimeiraFila_resto _ _).2.2.1
  · rfl
  · rfl

/-- Witness for C6 at `estadoMeio`: the committed allocation is
min(5, 3) = 3. -/
theorem alocacao_eh_min_witness :
    (alocar estadoMeio "A" 7
        { id := 7, solicitante := "F", categoria := "A", quantidade := 3,
          prioridade := "alta", data := 0, atendido := false }).1.historico_alocacoes =
      { id := 8, item_id := 5, pedido_id := 7,
        quantidade := min (5 : Int) 3, data := 8 } :: estadoMeio.historico_alocacoes ∧
    min (5 : Int) 3 ≤ 5 ∧ min (5 : Int) 3 ≤ 3 :=
  alocacao_eh_min estadoMeio "A" 7
    { id := 7, solicitante := "F", categoria := "A", quantidade := 3,
      prioridade := "alta", data := 0, atendido := false }
    (by decide :
      estoqueGet estadoMeio.estoque "A" =
        { id := 5, nome := "caixa", categoria := "A", quantidade := 5, data := 0 } :: [])

/-- C8: queue singularity at every reachable state (public operations with
the positive quantities of the data model): the queued ids are globally
without duplicates, so a request sits in at most one queue at most once;
every queued id refers to an existing unsatisfied request with remaining
quantity strictly positive; and a request whose satisfied flag is set never
appears in any queue. -/
theorem singularidade_das_filas {s : Sistema} (h : Reachable s) :
    (filaIds s).Nodup ∧
    (∀ pid ∈ filaIds s, ∃ p, pedidosGet s.pedidos pid = some p ∧
      p.atendido = false ∧ 0 < p.quantidade) ∧
    (∀ pid p, pedidosGet s.pedidos pid = some p → p.atendido = true →
      pid ∉ filaIds s) := by
  have inv := Reachable_Invar h
  refine ⟨inv.nodup, inv.vivos, ?_⟩
  intro pid p hg hat hcon
  obtain ⟨p0, hg0, hat0, -⟩ := inv.vivos pid hcon
  rw [hg] at hg0
  have hp0 : p0 = p := (Option.some.inj hg0).symm
  rw [hp0, hat] at hat0
  exact Bool.noConfusion hat0

/-- Witness for C8 at the reachable state `cenarioFifo`. -/
theorem singularidade_das_filas_witness :
    (filaIds cenarioFifo).Nodup ∧
    (∀ pid ∈ filaIds cenarioFifo, ∃ p, pedidosGet cenarioFifo.pedidos pid = some p ∧
      p.atendido = false ∧ 0 < p.quantidade) ∧
    (∀ pid p, pedidosGet cenarioFifo.pedidos pid = some p → p.atendido = true →
      pid ∉ filaIds cenarioFifo) :=
  singularidade_das_filas
    (Reachable.pedido "FamA" "Alimentos" 4 "alta"
      (Reachable.doacao "Feijao" "Alimentos" 3
        (Reachable.doacao "Arroz" "Alimentos" 5 Reachable.vazio (by decide))
        (by decide))
      (by decide))

theorem findCompatIn_none {peds : List (Nat × Pedido)} {cat : String} :
    ∀ {l : List Nat}, (∀ pid ∈ l, pedidoCompativelB peds cat pid = false) →
      findCompatIn peds cat l = none := by
  intro l
  induction l with
  | nil => intro _; rfl
  | cons a t ih =>
    intro h
    have ha := h a (List.mem_cons_self _ _)
    unfold pedidoCompativelB at ha
    rw [findCompatIn]
    rcases hg : pedidosGet peds a with _ | q <;> dsimp only at ha ⊢
    · exact ih (fun pid hm => h pid (List.mem_cons_of_mem _ hm))
    · rw [hg] at ha
      dsimp only at ha
      have hcond : ¬(q.atendido = false ∧ q.categoria = cat) := by
        rintro ⟨h1, h2⟩
        rw [h1, h2] at ha
        simp at ha
      rw [if_neg hcond]
      exact ih (fun pid hm => h pid (List.mem_cons_of_mem _ hm))

theorem passo_sem_compativel {s : Sistema} {cat : String} (hviv : FilasVivas s)
    (hsc : semCompativeis s cat) : passo s cat = (s, false) := by
  unfold passo
  rcases hP : prox_pedido s with _ | pid <;> dsimp only
  rcases hG : pedidosGet s.pedidos pid with _ | p <;> dsimp only
  · have hv := hviv pid (prox_pedido_mem hP)
    unfold vivo at hv
    rw [hG] at hv
    cases hv
  · have hv := hviv pid (prox_pedido_mem hP)
    unfold vivo at hv
    rw [hG] at hv
    dsimp only at hv
    have hat : ¬p.atendido = true := by
      cases hpa : p.atendido
      · simp
      · rw [hpa] at hv
        simp at hv
    rw [if_neg hat]
    have hatf : p.atendido = false := by
      cases hpa : p.atendido
      · rfl
      · exact absurd hpa hat
    have hcompat := hsc pid (prox_pedido_mem hP)
    unfold pedidoCompativelB at hcompat
    rw [hG] at hcompat
    dsimp only at hcompat
    have hcat : ¬p.categoria = cat := by
      intro hc
      simp [hatf, hc] at hcompat
    rw [if_neg hcat]
    have hpro : promover s cat = none := by
      unfold promover
      rw [findCompatIn_none (fun pid' hm' => hsc pid'
            (show pid' ∈ filaIds s from
              List.mem_append_left _ (List.mem_append_left _ hm'))),
          findCompatIn_none (fun pid' hm' => hsc pid'
            (show pid' ∈ filaIds s from
              List.mem_append_left _ (List.mem_append_right _ hm'))),
          findCompatIn_none (fun pid' hm' => hsc pid'
            (show pid' ∈ filaIds s from List.mem_append_right _ hm'))]
    rw [hpro]

theorem passo_sem_estoque {s : Sistema} {cat : String} (hviv : FilasVivas s)
    (hE : estoqueGet s.estoque cat = []) :
    ∃ s1, passo s cat = (s1, false) ∧ s1.estoque = s.estoque ∧ s1.pedidos = s.pedidos ∧
      s1.historico_alocacoes = s.historico_alocacoes ∧ s1.proximo = s.proximo ∧
      s1.fila_alta.Perm s.fila_alta ∧ s1.fila_media.Perm s.fila_media ∧
      s1.fila_baixa.Perm s.fila_baixa := by
  unfold passo
  rcases hP : prox_pedido s with _ | pid <;> dsimp only
  · exact ⟨s, rfl, rfl, rfl, rfl, rfl, List.Perm.refl _, List.Perm.refl _, List.Perm.refl _⟩
  · rcases hG : pedidosGet s.pedidos pid with _ | p <;> dsimp only
    · have hv := hviv pid (prox_pedido_mem hP)
      unfold vivo at hv
      rw [hG] at hv
      cases hv
    · have hv := hviv pid (prox_pedido_mem hP)
      unfold vivo at hv
      rw [hG] at hv
      dsimp only at hv
      have hat : ¬p.atendido = true := by
        cases hpa : p.atendido
        · simp
        · rw [hpa] at hv
          simp at hv
      rw [if_neg hat]
      by_cases hcat : p.categoria = cat
      · rw [if_pos hcat]
        refine ⟨s, ?_, rfl, rfl, rfl, rfl, List.Perm.refl _, List.Perm.refl _,
          List.Perm.refl _⟩
        unfold alocar
        rw [hE]
      · rw [if_neg hcat]
        rcases hPr : promover s cat with _ | ⟨s1, pid1, p1⟩ <;> dsimp only
        · exact ⟨s, rfl, rfl, rfl, rfl, rfl, List.Perm.refl _, List.Perm.refl _,
            List.Perm.refl _⟩
        · obtain ⟨he, hp, hh, hx, pa, pm, pb, -, -, -, -⟩ := promover_spec hPr
          refine ⟨s1, ?_, he, hp, hh, hx, pa, pm, pb⟩
          unfold alocar
          rw [show estoqueGet s1.estoque cat = [] from by rw [he]; exact hE]

/-- C4 (counterexample): the claim fails on the code.  `estadoRotaciona` is a
reachable state with no stock at all whose middle queue is [1, 0], request 0
being an unsatisfied request of category B behind request 1: running the
matching step for B commits no allocation but rotates the middle queue to
[0, 1], so the state is not left unchanged. -/
theorem matching_muda_sem_estoque :
    estoqueGet estadoRotaciona.estoque "B" = [] ∧
    FilasVivas estadoRotaciona ∧
    (∃ pid ∈ filaIds estadoRotaciona,
      pedidoCompativelB estadoRotaciona.pedidos "B" pid = true) ∧
    tentar_alocar estadoRotaciona "B" ≠ estadoRotaciona ∧
    estadoRotaciona.fila_media = [1, 0] ∧
    (tentar_alocar estadoRotaciona "B").fila_media = [0, 1] ∧
    (tentar_alocar estadoRotaciona "B").historico_alocacoes =
      estadoRotaciona.historico_alocacoes := by
  decide

/-- C4 (amended): on a state whose queues refer only to live unsatisfied
requests, the matching step for a category is the identity when no
compatible unsatisfied request exists; when the category has no stock, the
step (invoked once or repeatedly) commits no ledger entry and leaves stock,
requests and ledger unchanged, but may cyclically rotate one priority queue
to promote a compatible request, so the queues are only guaranteed to be
permutations of the originals. -/
theorem matching_ociosa {s : Sistema} {cat : String} (hviv : FilasVivas s) :
    (semCompativeis s cat → tentar_alocar s cat = s) ∧
    (estoqueGet s.estoque cat = [] →
      (tentar_alocar s cat).historico_alocacoes = s.historico_alocacoes ∧
      (tentar_alocar s cat).estoque = s.estoque ∧
      (tentar_alocar s cat).pedidos = s.pedidos ∧
      (tentar_alocar s cat).fila_alta.Perm s.fila_alta ∧
      (tentar_alocar s cat).fila_media.Perm s.fila_media ∧
      (tentar_alocar s cat).fila_baixa.Perm s.fila_baixa ∧
      (tentar_alocar (tentar_alocar s cat) cat).historico_alocacoes =
        s.historico_alocacoes) := by
  constructor
  · intro hsc
    exact tentar_break (passo_sem_compativel hviv hsc)
  · intro hE
    obtain ⟨s1, hps, he, hp, hh, hx, pa, pm, pb⟩ := passo_sem_estoque hviv hE
    have ht : tentar_alocar s cat = s1 := tentar_break hps
    have hviv1 : FilasVivas s1 := by
      intro pid hm
      rw [hp]
      apply hviv
      unfold filaIds at hm ⊢
      exact ((pa.append pm).append pb).subset hm
    have hE1 : estoqueGet s1.estoque cat = [] := by rw [he]; exact hE
    obtain ⟨s2, hps2, he2, hp2, hh2, hx2, pa2, pm2, pb2⟩ := passo_sem_estoque hviv1 hE1
    have ht2 : tentar_alocar s1 cat = s2 := tentar_break hps2
    rw [ht]
    exact ⟨hh, he, hp, pa, pm, pb, by rw [ht2, hh2, hh]⟩

/-- Witness for the amended C4 theorem: matching `estadoRotaciona` for the
category C, which has no compatible request and no stock, is the identity and
repeated invocation adds no ledger entries. -/
theorem matching_ociosa_witness :
    tentar_alocar estadoRotaciona "C" = estadoRotaciona ∧
    (tentar_alocar (tentar_alocar estadoRotaciona "C") "C").historico_alocacoes =
      estadoRotaciona.historico_alocacoes := by
  refine ⟨(matching_ociosa (by decide)).1 (by decide), ?_⟩
  exact ((matching_ociosa (by decide)).2 (by decide)).2.2.2.2.2.2

/-- C7: priority ordering.  For every state holding exactly two unsatisfied
requests of the same category in different priority queues (the higher one
in a strictly higher queue, however the two came to be registered), if a
donation arrives whose quantity suffices for the higher-priority request but
not for both, then the higher-priority request ends satisfied and the
lower-priority one does not. -/
theorem prioridade_alta_vence {s : Sistema} {cat nomeItem : String} {idHi idLo : Nat}
    {pHi pLo : Pedido} {q : Int}
    (hgetHi : pedidosGet s.pedidos idHi = some pHi)
    (hgetLo : pedidosGet s.pedidos idLo = some pLo)
    (hHiAt : pHi.atendido = false) (hHiCat : pHi.categoria = cat)
    (hLoAt : pLo.atendido = false) (hLoCat : pLo.categoria = cat)
    (hne : idHi ≠ idLo)
    (hfilas : (s.fila_alta = [idHi] ∧ s.fila_media = [idLo] ∧ s.fila_baixa = []) ∨
      (s.fila_alta = [idHi] ∧ s.fila_media = [] ∧ s.fila_baixa = [idLo]) ∨
      (s.fila_alta = [] ∧ s.fila_media = [idHi] ∧ s.fila_baixa = [idLo]))
    (hEmpty : estoqueGet s.estoque cat = [])
    (hq1 : pHi.quantidade ≤ q) (hq2 : q < pHi.quantidade + pLo.quantidade) :
    (pedidosGet (registrar_doacao s nomeItem cat q).pedidos idHi).map Pedido.atendido =
      some true ∧
    (pedidosGet (registrar_doacao s nomeItem cat q).pedidos idLo).map Pedido.atendido =
      some false := by
  set S1 : Sistema :=
    { s with
      estoque := estoqueSet s.estoque cat (estoqueGet s.estoque cat ++
        [{ id := s.proximo, nome := nomeItem, categoria := cat, quantidade := q,
           data := s.proximo }]),
      proximo := s.proximo + 1 } with hS1
  have hreg : registrar_doacao s nomeItem cat q = tentar_alocar S1 cat := rfl
  rw [hreg]
  rcases hfilas with ⟨ha, hm, hb⟩ | ⟨ha, hm, hb⟩ | ⟨ha, hm, hb⟩
  · by_cases hqe : q - pHi.quantidade ≤ 0
    · have hb1 : (passo S1 cat).2 = true := by
        simp [hS1, passo, alocar, prox_pedido, removeDaPrimeiraFila, pedidosGet_set,
          estoqueGet_set_self, hgetHi, hgetLo, hHiAt, hHiCat, hLoAt, hLoCat,
          ha, hm, hb, hEmpty, hqe, min_eq_right hq1, hne, Ne.symm hne]
      have e1 : tentar_alocar S1 cat = tentar_alocar (passo S1 cat).1 cat :=
        tentar_step (by rw [← hb1])
      have hb2 : (passo (passo S1 cat).1 cat).2 = false := by
        simp [hS1, passo, alocar, prox_pedido, removeDaPrimeiraFila, pedidosGet_set,
          estoqueGet_set_self, hgetHi, hgetLo, hHiAt, hHiCat, hLoAt, hLoCat,
          ha, hm, hb, hEmpty, hqe, min_eq_right hq1, hne, Ne.symm hne]
      have e2 : tentar_alocar (passo S1 cat).1 cat = (passo (passo S1 cat).1 cat).1 :=
        tentar_break (by rw [← hb2])
      rw [e1, e2]
      constructor <;>
        simp [hS1, passo, alocar, prox_pedido, removeDaPrimeiraFila, pedidosGet_set,
          estoqueGet_set_self, hgetHi, hgetLo, hHiAt, hHiCat, hLoAt, hLoCat,
          ha, hm, hb, hEmpty, hqe, min_eq_right hq1, hne, Ne.symm hne]
    · have hb1 : (passo S1 cat).2 = true := by
        simp [hS1, passo, alocar, prox_pedido, removeDaPrimeiraFila, pedidosGet_set,
          estoqueGet_set_self, hgetHi, hgetLo, hHiAt, hHiCat, hLoAt, hLoCat,
          ha, hm, hb, hEmpty, hqe, min_eq_right hq1, hne, Ne.symm hne]
      have e1 : tentar_alocar S1 cat = tentar_alocar (passo S1 cat).1 cat :=
        tentar_step (by rw [← hb1])
      have hb2 : (passo (passo S1 cat).1 cat).2 = true := by
        simp [hS1, passo, alocar, prox_pedido, removeDaPrimeiraFila, pedidosGet_set,
          estoqueGet_set_self, hgetHi, hgetLo, hHiAt, hHiCat, hLoAt, hLoCat,
          ha, hm, hb, hEmpty, hqe, min_eq_right hq1,
          min_eq_left (by omega : q - pHi.quantidade ≤ pLo.quantidade),
          eq_false hqe,
          eq_false (by omega : ¬(q ≤ pHi.quantidade)),
          eq_false (by omega : ¬(pLo.quantidade - (q - pHi.quantidade) ≤ 0)),
          eq_false (by omega : ¬(pLo.quantidade ≤ q - pHi.quantidade)),
          hne, Ne.symm hne]
      have e2 : tentar_alocar (passo S1 cat).1 cat =
          tentar_alocar (passo (passo S1 cat).1 cat).1 cat :=
        tentar_step (by rw [← hb2])
      have hb3 : (passo (passo (passo S1 cat).1 cat).1 cat).2 = false := by
        simp [hS1, passo, alocar, prox_pedido, removeDaPrimeiraFila, pedidosGet_set,
          estoqueGet_set_self, hgetHi, hgetLo, hHiAt, hHiCat, hLoAt, hLoCat,
          ha, hm, hb, hEmpty, hqe, min_eq_right hq1,
          min_eq_left (by omega : q - pHi.quantidade ≤ pLo.quantidade),
          eq_false hqe,
          eq_false (by omega : ¬(q ≤ pHi.quantidade)),
          eq_false (by omega : ¬(pLo.quantidade - (q - pHi.quantidade) ≤ 0)),
          eq_false (by omega : ¬(pLo.quantidade ≤ q - pHi.quantidade)),
          hne, Ne.symm hne]
      have e3 : tentar_alocar (passo (passo S1 cat).1 cat).1 cat =
          (passo (passo (passo S1 cat).1 cat).1 cat).1 :=
        tentar_break (by rw [← hb3])
      rw [e1, e2, e3]
      constructor <;>
        simp [hS1, passo, alocar, prox_pedido, removeDaPrimeiraFila, pedidosGet_set,
          estoqueGet_set_self, hgetHi, hgetLo, hHiAt, hHiCat, hLoAt, hLoCat,
          ha, hm, hb, hEmpty, hqe, min_eq_right hq1,
          min_eq_left (by omega : q - pHi.quantidade ≤ pLo.quantidade),
          eq_false hqe,
          eq_false (by omega : ¬(q ≤ pHi.quantidade)),
          eq_false (by omega : ¬(pLo.quantidade - (q - pHi.quantidade) ≤ 0)),
          eq_false (by omega : ¬(pLo.quantidade ≤ q - pHi.quantidade)),
          hne, Ne.symm hne]
  · by_cases hqe : q - pHi.quantidade ≤ 0
    · have hb1 : (passo S1 cat).2 = true := by
        simp [hS1, passo, alocar, prox_pedido, removeDaPrimeiraFila, pedidosGet_set,
          estoqueGet_set_self, hgetHi, hgetLo, hHiAt, hHiCat, hLoAt, hLoCat,
          ha, hm, hb, hEmpty, hqe, min_eq_right hq1, hne, Ne.symm hne]
      have e1 : tentar_alocar S1 cat = tentar_alocar (passo S1 cat).1 cat :=
        tentar_step (by rw [← hb1])
      have hb2 : (passo (passo S1 cat).1 cat).2 = false := by
        simp [hS1, passo, alocar, prox_pedido, removeDaPrimeiraFila, pedidosGet_set,
          estoqueGet_set_self, hgetHi, hgetLo, hHiAt, hHiCat, hLoAt, hLoCat,
          ha, hm, hb, hEmpty, hqe, min_eq_right hq1, hne, Ne.symm hne]
      have e2 : tentar_alocar (passo S1 cat).1 cat = (passo (passo S1 cat).1 cat).1 :=
        tentar_break (by rw [← hb2])
      rw [e1, e2]
      constructor <;>
        simp [hS1, passo, alocar, prox_pedido, removeDaPrimeiraFila, pedidosGet_set,
          estoqueGet_set_self, hgetHi, hgetLo, hHiAt, hHiCat, hLoAt, hLoCat,
          ha, hm, hb, hEmpty, hqe, min_eq_right hq1, hne, Ne.symm hne]
    · have hb1 : (passo S1 cat).2 = true := by
        simp [hS1, passo, alocar, prox_pedido, removeDaPrimeiraFila, pedidosGet_set,
          estoqueGet_set_self, hgetHi, hgetLo, hHiAt, hHiCat, hLoAt, hLoCat,
          ha, hm, hb, hEmpty, hqe, min_eq_right hq1, hne, Ne.symm hne]
      have e1 : tentar_alocar S1 cat = tentar_alocar (passo S1 cat).1 cat :=
        tentar_step (by rw [← hb1])
      have hb2 : (passo (passo S1 cat).1 cat).2 = true := by
        simp [hS1, passo, alocar, prox_pedido, removeDaPrimeiraFila, pedidosGet_set,
          estoqueGet_set_self, hgetHi, hgetLo, hHiAt, hHiCat, hLoAt, hLoCat,
          ha, hm, hb, hEmpty, hqe, min_eq_right hq1,
          min_eq_left (by omega : q - pHi.quantidade ≤ pLo.quantidade),
          eq_false hqe,
          eq_false (by omega : ¬(q ≤ pHi.quantidade)),
          eq_false (by omega : ¬(pLo.quantidade - (q - pHi.quantidade) ≤ 0)),
          eq_false (by omega : ¬(pLo.quantidade ≤ q - pHi.quantidade)),
          hne, Ne.symm hne]
      have e2 : tentar_alocar (passo S1 cat).1 cat =
          tentar_alocar (passo (passo S1 cat).1 cat).1 cat :=
        tentar_step (by rw [← hb2])
      have hb3 : (passo (passo (passo S1 cat).1 cat).1 cat).2 = false := by
        simp [hS1, passo, alocar, prox_pedido, removeDaPrimeiraFila, pedidosGet_set,
          estoqueGet_set_self, hgetHi, hgetLo, hHiAt, hHiCat, hLoAt, hLoCat,
          ha, hm, hb, hEmpty, hqe, min_eq_right hq1,
          min_eq_left (by omega : q - pHi.quantidade ≤ pLo.quantidade),
          eq_false hqe,
          eq_false (by omega : ¬(q ≤ pHi.quantidade)),
          eq_false (by omega : ¬(pLo.quantidade - (q - pHi.quantidade) ≤ 0)),
          eq_false (by omega : ¬(pLo.quantidade ≤ q - pHi.quantidade)),
          hne, Ne.symm hne]
      have e3 : tentar_alocar (passo (passo S1 cat).1 cat).1 cat =
          (passo (passo (passo S1 cat).1 cat).1 cat).1 :=
        tentar_break (by rw [← hb3])
      rw [e1, e2, e3]
      constructor <;>
        simp [hS1, passo, alocar, prox_pedido, removeDaPrimeiraFila, pedidosGet_set,
          estoqueGet_set_self, hgetHi, hgetLo, hHiAt, hHiCat, hLoAt, hLoCat,
          ha, hm, hb, hEmpty, hqe, min_eq_right hq1,
          min_eq_left (by omega : q - pHi.quantidade ≤ pLo.quantidade),
          eq_false hqe,
          eq_false (by omega : ¬(q ≤ pHi.quantidade)),
          eq_false (by omega : ¬(pLo.quantidade - (q - pHi.quantidade) ≤ 0)),
          eq_false (by omega : ¬(pLo.quantidade ≤ q - pHi.quantidade)),
          hne, Ne.symm hne]
  · by_cases hqe : q - pHi.quantidade ≤ 0
    · have hb1 : (passo S1 cat).2 = true := by
        simp [hS1, passo, alocar, prox_pedido, removeDaPrimeiraFila, pedidosGet_set,
          estoqueGet_set_self, hgetHi, hgetLo, hHiAt, hHiCat, hLoAt, hLoCat,
          ha, hm, hb, hEmpty, hqe, min_eq_right hq1, hne, Ne.symm hne]
      have e1 : tentar_alocar S1 cat = tentar_alocar (passo S1 cat).1 cat :=
        tentar_step (by rw [← hb1])
      have hb2 : (passo (passo S1 cat).1 cat).2 = false := by
        simp [hS1, passo, alocar, prox_pedido, removeDaPrimeiraFila, pedidosGet_set,
          estoqueGet_set_self, hgetHi, hgetLo, hHiAt, hHiCat, hLoAt, hLoCat,
          ha, hm, hb, hEmpty, hqe, min_eq_right hq1, hne, Ne.symm hne]
      have e2 : tentar_alocar (passo S1 cat).1 cat = (passo (passo S1 cat).1 cat).1 :=
        tentar_break (by rw [← hb2])
      rw [e1, e2]
      constructor <;>
        simp [hS1, passo, alocar, prox_pedido, removeDaPrimeiraFila, pedidosGet_set,
          estoqueGet_set_self, hgetHi, hgetLo, hHiAt, hHiCat, hLoAt, hLoCat,
          ha, hm, hb, hEmpty, hqe, min_eq_right hq1, hne, Ne.symm hne]
    · have hb1 : (passo S1 cat).2 = true := by
        simp [hS1, passo, alocar, prox_pedido, removeDaPrimeiraFila, pedidosGet_set,
          estoqueGet_set_self, hgetHi, hgetLo, hHiAt, hHiCat, hLoAt, hLoCat,
          ha, hm, hb, hEmpty, hqe, min_eq_right hq1, hne, Ne.symm hne]
      have e1 : tentar_alocar S1 cat = tentar_alocar (passo S1 cat).1 cat :=
        tentar_step (by rw [← hb1])
      have hb2 : (passo (passo S1 cat).1 cat).2 = true := by
        simp [hS1, passo, alocar, prox_pedido, removeDaPrimeiraFila, pedidosGet_set,
          estoqueGet_set_self, hgetHi, hgetLo, hHiAt, hHiCat, hLoAt, hLoCat,
          ha, hm, hb, hEmpty, hqe, min_eq_right hq1,
          min_eq_left (by omega : q - pHi.quantidade ≤ pLo.quantidade),
          eq_false hqe,
          eq_false (by omega : ¬(q ≤ pHi.quantidade)),
          eq_false (by omega : ¬(pLo.quantidade - (q - pHi.quantidade) ≤ 0)),
          eq_false (by omega : ¬(pLo.quantidade ≤ q - pHi.quantidade)),
          hne, Ne.symm hne]
      have e2 : tentar_alocar (passo S1 cat).1 cat =
          tentar_alocar (passo (passo S1 cat).1 cat).1 cat :=
        tentar_step (by rw [← hb2])
      have hb3 : (passo (passo (passo S1 cat).1 cat).1 cat).2 = false := by
        simp [hS1, passo, alocar, prox_pedido, removeDaPrimeiraFila, pedidosGet_set,
          estoqueGet_set_self, hgetHi, hgetLo, hHiAt, hHiCat, hLoAt, hLoCat,
          ha, hm, hb, hEmpty, hqe, min_eq_right hq1,
          min_eq_left (by omega : q - pHi.quantidade ≤ pLo.quantidade),
          eq_false hqe,
          eq_false (by omega : ¬(q ≤ pHi.quantidade)),
          eq_false (by omega : ¬(pLo.quantidade - (q - pHi.quantidade) ≤ 0)),
          eq_false (by omega : ¬(pLo.quantidade ≤ q - pHi.quantidade)),
          hne, Ne.symm hne]
      have e3 : tentar_alocar (passo (passo S1 cat).1 cat).1 cat =
          (passo (passo (passo S1 cat).1 cat).1 cat).1 :=
        tentar_break (by rw [← hb3])
      rw [e1, e2, e3]
      constructor <;>
        simp [hS1, passo, alocar, prox_pedido, removeDaPrimeiraFila, pedidosGet_set,
          estoqueGet_set_self, hgetHi, hgetLo, hHiAt, hHiCat, hLoAt, hLoCat,
          ha, hm, hb, hEmpty, hqe, min_eq_right hq1,
          min_eq_left (by omega : q - pHi.quantidade ≤ pLo.quantidade),
          eq_false hqe,
          eq_false (by omega : ¬(q ≤ pHi.quantidade)),
          eq_false (by omega : ¬(pLo.quantidade - (q - pHi.quantidade) ≤ 0)),
          eq_false (by omega : ¬(pLo.quantidade ≤ q - pHi.quantidade)),
          hne, Ne.symm hne]

/-- Witness for C7: a high-priority request for 3 and a low-priority request
for 2, donation of 4: the high one is satisfied, the low one is not. -/
theorem prioridade_alta_vence_witness :
    (pedidosGet (registrar_doacao estadoDupla "D" "A" 4).pedidos 20).map Pedido.atendido =
      some true ∧
    (pedidosGet (registrar_doacao estadoDupla "D" "A" 4).pedidos 21).map Pedido.atendido =
      some false :=
  prioridade_alta_vence
    (by decide : pedidosGet estadoDupla.pedidos 20 =
      some { id := 20, solicitante := "H", categoria := "A", quantidade := 3,
             prioridade := "alta", data := 0, atendido := false })
    (by decide : pedidosGet estadoDupla.pedidos 21 =
      some { id := 21, solicitante := "L", categoria := "A", quantidade := 2,
             prioridade := "baixa", data := 0, atendido := false })
    (by decide) (by decide) (by decide) (by decide) (by decide)
    (Or.inr (Or.inl ⟨rfl, rfl, rfl⟩)) (by decide) (by decide) (by decide)
